import Mathlib

/-!
Submission pipeline of the registry: `cmd/add-module` and `cmd/add-provider`.

A shallow embedding of the two `main` functions.  Strings are Lean strings (sequences of
Unicode scalar values, the valid UTF-8 Go strings).  The collaborators that live outside the two
files (`storage`, the submission record, the `regaddr` address checker, the JSON writer, the
token lookup) are parameters that are threaded through an explicit world `σ`; every call made
to them is recorded in a trace.  Logging is not modelled.
-/

namespace Registry

/-! ## The `regexp` fragment used by the two patterns -/

/-- One node of a compiled pattern: a literal character, or a named capture group holding a
greedy repetition of a character class (`min = 0` for `*`, `min = 1` for `+`). -/
inductive Node where
  | lit (c : Char)
  | group (name : String) (cls : Char → Bool) (min : Nat)

/-- A compiled pattern: the concatenation of its nodes. -/
abbrev Regexp := List Node

/-- Literal text inside a pattern. -/
def lits (s : String) : List Node := s.data.map Node.lit

/-- The class `[a-zA-Z0-9]`. -/
def isAlnum (c : Char) : Bool :=
  ('a' ≤ c && c ≤ 'z') || ('A' ≤ c && c ≤ 'Z') || ('0' ≤ c && c ≤ '9')

/-- The class `[a-zA-Z0-9-]`. -/
def isAlnumHyphen (c : Char) : Bool := isAlnum c || c == '-'

/-- Greedy repetition with backtracking: consume one more character of the class when that
leads to a match of the rest of the pattern (the continuation `k`), otherwise stop here.
`acc` is the text consumed so far. -/
def greedy {α : Type} (cls : Char → Bool) (k : List Char → List Char → Option α) :
    List Char → List Char → Option α
  | acc, [] => k acc []
  | acc, c :: cs =>
    if cls c then
      match greedy cls k (acc ++ [c]) cs with
      | some r => some r
      | none => k acc (c :: cs)
    else k acc (c :: cs)

/-- Match the pattern at the start of the input (leftmost-first, as a backtracking search):
the captured groups in order and the unconsumed input. -/
def matchHere : Regexp → List Char → Option (List String × List Char)
  | [], rest => some ([], rest)
  | .lit _ :: _, [] => none
  | .lit c :: ns, x :: xs => if x = c then matchHere ns xs else none
  | .group _ cls min :: ns, xs =>
    greedy cls (fun cap rest =>
      if cap.length < min then none
      else (matchHere ns rest).map (fun r => (String.mk cap :: r.1, r.2))) [] xs

/-- The submatch slice of a match starting at the head of `input`: element 0 is the whole
matched text, element `i` the text of the `i`-th group. -/
def matchAt (re : Regexp) (input : List Char) : Option (List String) :=
  (matchHere re input).map
    (fun r => String.mk (input.take (input.length - r.2.length)) :: r.1)

/-- Scan for the leftmost start position at which the pattern matches. -/
def findFrom (re : Regexp) : List Char → Option (List String)
  | [] => matchAt re []
  | c :: cs =>
    match matchAt re (c :: cs) with
    | some m => some m
    | none => findFrom re cs

/-- The function `(*Regexp).FindStringSubmatch`: `none` is Go's `nil`. -/
def findStringSubmatch (re : Regexp) (s : String) : Option (List String) :=
  findFrom re s.data

/-- The names of the capture groups, in order. -/
def groupNames : Regexp → List String
  | [] => []
  | .lit _ :: ns => groupNames ns
  | .group name _ _ :: ns => name :: groupNames ns

/-- The function `(*Regexp).SubexpIndex` for a name that occurs in the pattern
(group numbers start at 1). -/
def subexpIndex (re : Regexp) (name : String) : Nat :=
  (groupNames re).indexOf name + 1

/-- The function `strings.ToLower` on valid UTF-8: every rune is mapped through
`unicode.ToLower`, which is the parameter `lower`. -/
def toLower (lower : Char → Char) (s : String) : String :=
  String.mk (s.data.map lower)

/-- The ASCII part of `unicode.ToLower`: `A`..`Z` go to `a`..`z`. -/
def asciiLower (c : Char) : Char :=
  if 'A' ≤ c ∧ c ≤ 'Z' then Char.ofNat (c.toNat + 32) else c

/-- The kinds of collaborator calls the two pipelines make. -/
inductive CallKind where
  | create | parseSource | list | updateMetadata | save | path
  deriving DecidableEq, Repr

/-! ## `cmd/add-module` -/

namespace AddModule

/-- The type `module.Identifier`. -/
structure Identifier where
  Namespace : String
  Name : String
  TargetSystem : String
  deriving DecidableEq, Repr

/-- The type `Output` of `cmd/add-module/main.go`. -/
structure Output where
  File : String := ""
  Namespace : String := ""
  Name : String := ""
  Target : String := ""
  Validation : String := ""
  deriving DecidableEq, Repr

/-- The pattern compiled at line 50. -/
def re : Regexp :=
  [.group "Namespace" isAlnum 1] ++ lits "/terraform-" ++ [.group "Target" isAlnum 0]
    ++ lits "-" ++ [.group "Name" isAlnumHyphen 0]

/-- Lines 50-60 without the call of `storage.Create`: the identifier built from the
repository name, or the error returned at line 53. -/
def parseStage (repository : String) : Except String Identifier :=
  match findStringSubmatch re repository with
  | none => .error ("Invalid repository name: " ++ repository)
  | some m =>
    .ok { Namespace := m.getD (subexpIndex re "Namespace") ""
          Name := m.getD (subexpIndex re "Name") ""
          TargetSystem := m.getD (subexpIndex re "Target") "" }

/-- The collaborators of the pipeline: `M` is the submission record `module.Module`, `E` the
element type of the slice returned by `storage.List`, `σ` the world (file system, network).
An error is its message; `none` is Go's `nil` error. -/
structure Collaborators (M E σ : Type) where
  /-- The method `storage.Create`. -/
  create : Identifier → M
  /-- The method `storage.List`. -/
  list : σ → Except String (List E) × σ
  /-- The method `storage.Save`. -/
  save : M → σ → Option String × σ
  /-- The method `storage.Path`. -/
  path : Identifier → String
  /-- The embedded field `submitted.Identifier`. -/
  identifier : M → Identifier
  /-- The method `submitted.String`. -/
  string : M → String
  /-- The method `p.String` of a listed entry. -/
  entryString : E → String
  /-- The method `submitted.UpdateMetadata` (pointer receiver: the record may change). -/
  updateMetadata : M → σ → (Option String × M) × σ
  /-- The value `len(submitted.Versions)`. -/
  versions : M → Nat
  /-- The value `submitted.Repository.URL()`. -/
  repositoryURL : M → String
  /-- The error result of `regaddr.ParseModuleSource`. -/
  parseModuleSource : String → Option String

/-- A collaborator call, with the argument where a claim speaks about it. -/
inductive Call (M : Type) where
  | create (id : Identifier)
  | parseModuleSource (addr : String)
  | list
  | updateMetadata
  | save (m : M)
  | path (id : Identifier)

/-- The kind of a call. -/
def Call.kind {M : Type} : Call M → CallKind
  | .create _ => .create
  | .parseModuleSource _ => .parseSource
  | .list => .list
  | .updateMetadata => .updateMetadata
  | .save _ => .save
  | .path _ => .path

/-- What the closure of lines 48-95 leaves behind: the returned error, the fields of `output`
it assigned, the collaborator calls in order, and the world. -/
structure Result (M σ : Type) where
  err : Option String
  output : Output
  calls : List (Call M)
  world : σ

/-- The closure of lines 48-95. -/
def pipeline {M E σ : Type} (lower : Char → Char) (S : Collaborators M E σ)
    (repository : String) (w : σ) : Result M σ :=
  match parseStage repository with
  | .error e => ⟨some e, {}, [], w⟩
  | .ok id =>
    let submitted := S.create id
    let c1 : List (Call M) := [.create id, .parseModuleSource (S.string submitted)]
    match S.parseModuleSource (S.string submitted) with
    | some e => ⟨some e, {}, c1, w⟩
    | none =>
      match S.list w with
      | (.error e, w1) => ⟨some e, {}, c1 ++ [.list], w1⟩
      | (.ok modules, w1) =>
        match modules.find? (fun p =>
            toLower lower (S.entryString p) == toLower lower (S.string submitted)) with
        | some p =>
          ⟨some ("Repository already exists in the registry, " ++ S.entryString p), {},
            c1 ++ [.list], w1⟩
        | none =>
          match S.updateMetadata submitted w1 with
          | ((some e, _), w2) =>
            ⟨some ("An unexpected error occured: " ++ e), {},
              c1 ++ [.list, .updateMetadata], w2⟩
          | ((none, submitted), w2) =>
            if S.versions submitted = 0 then
              ⟨some ("No versions detected for repository " ++ S.repositoryURL submitted), {},
                c1 ++ [.list, .updateMetadata], w2⟩
            else
              match S.save submitted w2 with
              | (some e, w3) =>
                ⟨some e, {}, c1 ++ [.list, .updateMetadata, .save submitted], w3⟩
              | (none, w3) =>
                ⟨none,
                  { Namespace := (S.identifier submitted).Namespace
                    Name := (S.identifier submitted).Name
                    Target := (S.identifier submitted).TargetSystem
                    File := S.path (S.identifier submitted) },
                  c1 ++ [.list, .updateMetadata, .save submitted,
                    .path (S.identifier submitted)], w3⟩

/-- The command-line flags. -/
structure Flags where
  repository : String := ""
  output : String := ""
  moduleData : String := "../modules"

/-- The process environment of `main`. -/
structure Env (M E σ : Type) where
  /-- The function `github.EnvAuthToken`. -/
  envAuthToken : σ → Except String String
  /-- The storage built by `module.NewStorage` from the data directory and the client made
  with the token. -/
  newStorage : String → String → Collaborators M E σ
  /-- The function `files.SafeWriteObjectToJSONFile`. -/
  safeWriteObjectToJSONFile : String → Output → σ → Option String × σ

/-- What the process does, in order. -/
inductive Event (M : Type) where
  | call (c : Call M)
  | write (file : String) (output : Output)
  | exit (code : Nat)
  | crash (msg : String)

/-- A run of the process: its events, the last of which ends it, and the final world. -/
structure Run (M σ : Type) where
  events : List (Event M)
  world : σ

/-- Lines 97-101: the value of `output` that is handed to the JSON writer. -/
def reported {M σ : Type} (r : Result M σ) : Output :=
  match r.err with
  | some e => { r.output with Validation := e }
  | none => r.output

/-- Whether an event is the writing of the output file. -/
def Event.isWrite {M : Type} : Event M → Bool
  | .write _ _ => true
  | _ => false

/-- The function `main` of `cmd/add-module/main.go`. -/
def main {M E σ : Type} (lower : Char → Char) (env : Env M E σ) (flags : Flags) (w : σ) :
    Run M σ :=
  match env.envAuthToken w with
  | .error _ => ⟨[.exit 1], w⟩
  | .ok token =>
    let storage := env.newStorage flags.moduleData token
    let r := pipeline lower storage flags.repository w
    let output := reported r
    match env.safeWriteObjectToJSONFile flags.output output r.world with
    | (some jsonErr, w') =>
      ⟨r.calls.map .call ++ [.write flags.output output, .crash jsonErr], w'⟩
    | (none, w') =>
      match r.err with
      | some _ => ⟨r.calls.map .call ++ [.write flags.output output, .exit 1], w'⟩
      | none => ⟨r.calls.map .call ++ [.write flags.output output, .exit 0], w'⟩

end AddModule

/-! ## `cmd/add-provider` -/

namespace AddProvider

/-- The type `provider.Identifier`. -/
structure Identifier where
  Namespace : String
  ProviderName : String
  deriving DecidableEq, Repr

/-- The type `Output` of `cmd/add-provider/main.go`. -/
structure Output where
  File : String := ""
  Namespace : String := ""
  Name : String := ""
  Validation : String := ""
  deriving DecidableEq, Repr

/-- The pattern compiled at line 49. -/
def re : Regexp :=
  [.group "Namespace" isAlnum 1] ++ lits "/terraform-provider-"
    ++ [.group "Name" isAlnumHyphen 0]

/-- Lines 49-58 without the call of `storage.Create`: the identifier built from the
lower-cased repository name, or the error returned at line 52 (which quotes the name as
given). -/
def parseStage (lower : Char → Char) (repository : String) : Except String Identifier :=
  match findStringSubmatch re (toLower lower repository) with
  | none => .error ("Invalid repository name: " ++ repository)
  | some m =>
    .ok { Namespace := m.getD (subexpIndex re "Namespace") ""
          ProviderName := m.getD (subexpIndex re "Name") "" }

/-- The collaborators of the pipeline: `M` is the submission record `provider.Provider`, `E`
the element type of the slice returned by `storage.List`, `σ` the world.  An error is its
message; `none` is Go's `nil` error. -/
structure Collaborators (M E σ : Type) where
  /-- The method `storage.Create`. -/
  create : Identifier → M
  /-- The method `storage.List`. -/
  list : σ → Except String (List E) × σ
  /-- The method `storage.Save`. -/
  save : M → σ → Option String × σ
  /-- The method `storage.Path`. -/
  path : Identifier → String
  /-- The embedded field `submitted.Identifier`. -/
  identifier : M → Identifier
  /-- The method `submitted.String`. -/
  string : M → String
  /-- The method `p.String` of a listed entry. -/
  entryString : E → String
  /-- The method `submitted.UpdateMetadata` (pointer receiver: the record may change). -/
  updateMetadata : M → σ → (Option String × M) × σ
  /-- The value `len(submitted.Versions)`. -/
  versions : M → Nat
  /-- The value `submitted.Repository.URL()`. -/
  repositoryURL : M → String
  /-- The error result of `regaddr.ParseProviderSource`. -/
  parseProviderSource : String → Option String

/-- A collaborator call, with the argument where a claim speaks about it. -/
inductive Call (M : Type) where
  | create (id : Identifier)
  | parseProviderSource (addr : String)
  | list
  | updateMetadata
  | save (m : M)
  | path (id : Identifier)

/-- The kind of a call. -/
def Call.kind {M : Type} : Call M → CallKind
  | .create _ => .create
  | .parseProviderSource _ => .parseSource
  | .list => .list
  | .updateMetadata => .updateMetadata
  | .save _ => .save
  | .path _ => .path

/-- What the closure of lines 47-93 leaves behind: the returned error, the fields of `output`
it assigned, the collaborator calls in order, and the world. -/
structure Result (M σ : Type) where
  err : Option String
  output : Output
  calls : List (Call M)
  world : σ

/-- The closure of lines 47-93. -/
def pipeline {M E σ : Type} (lower : Char → Char) (S : Collaborators M E σ)
    (repository : String) (w : σ) : Result M σ :=
  match parseStage lower repository with
  | .error e => ⟨some e, {}, [], w⟩
  | .ok id =>
    let submitted := S.create id
    let c1 : List (Call M) := [.create id, .parseProviderSource (S.string submitted)]
    match S.parseProviderSource (S.string submitted) with
    | some e => ⟨some e, {}, c1, w⟩
    | none =>
      match S.list w with
      | (.error e, w1) => ⟨some e, {}, c1 ++ [.list], w1⟩
      | (.ok providers, w1) =>
        match providers.find? (fun p =>
            toLower lower (S.entryString p) == toLower lower (S.string submitted)) with
        | some p =>
          ⟨some ("Repository already exists in the registry, " ++ S.entryString p), {},
            c1 ++ [.list], w1⟩
        | none =>
          match S.updateMetadata submitted w1 with
          | ((some e, _), w2) =>
            ⟨some ("An unexpected error occured: " ++ e), {},
              c1 ++ [.list, .updateMetadata], w2⟩
          | ((none, submitted), w2) =>
            if S.versions submitted = 0 then
              ⟨some ("No versions detected for repository " ++ S.repositoryURL submitted), {},
                c1 ++ [.list, .updateMetadata], w2⟩
            else
              match S.save submitted w2 with
              | (some e, w3) =>
                ⟨some ("An unexpected error occured: " ++ e), {},
                  c1 ++ [.list, .updateMetadata, .save submitted], w3⟩
              | (none, w3) =>
                ⟨none,
                  { Namespace := (S.identifier submitted).Namespace
                    Name := (S.identifier submitted).ProviderName
                    File := S.path (S.identifier submitted) },
                  c1 ++ [.list, .updateMetadata, .save submitted,
                    .path (S.identifier submitted)], w3⟩

/-- The command-line flags. -/
structure Flags where
  repository : String := ""
  output : String := ""
  providerData : String := "../providers"

/-- The process environment of `main`. -/
structure Env (M E σ : Type) where
  /-- The function `github.EnvAuthToken`. -/
  envAuthToken : σ → Except String String
  /-- The storage built by `provider.NewStorage` from the data directory and the client made
  with the token. -/
  newStorage : String → String → Collaborators M E σ
  /-- The function `files.SafeWriteObjectToJSONFile`. -/
  safeWriteObjectToJSONFile : String → Output → σ → Option String × σ

/-- What the process does, in order. -/
inductive Event (M : Type) where
  | call (c : Call M)
  | write (file : String) (output : Output)
  | exit (code : Nat)
  | crash (msg : String)

/-- A run of the process: its events, the last of which ends it, and the final world. -/
structure Run (M σ : Type) where
  events : List (Event M)
  world : σ

/-- Lines 95-99: the value of `output` that is handed to the JSON writer. -/
def reported {M σ : Type} (r : Result M σ) : Output :=
  match r.err with
  | some e => { r.output with Validation := e }
  | none => r.output

/-- Whether an event is the writing of the output file. -/
def Event.isWrite {M : Type} : Event M → Bool
  | .write _ _ => true
  | _ => false

/-- The function `main` of `cmd/add-provider/main.go`. -/
def main {M E σ : Type} (lower : Char → Char) (env : Env M E σ) (flags : Flags) (w : σ) :
    Run M σ :=
  match env.envAuthToken w with
  | .error _ => ⟨[.exit 1], w⟩
  | .ok token =>
    let storage := env.newStorage flags.providerData token
    let r := pipeline lower storage flags.repository w
    let output := reported r
    match env.safeWriteObjectToJSONFile flags.output output r.world with
    | (some jsonErr, w') =>
      ⟨r.calls.map .call ++ [.write flags.output output, .crash jsonErr], w'⟩
    | (none, w') =>
      match r.err with
      | some _ => ⟨r.calls.map .call ++ [.write flags.output output, .exit 1], w'⟩
      | none => ⟨r.calls.map .call ++ [.write flags.output output, .exit 0], w'⟩

end AddProvider

/-! ## In-memory collaborators for the examples -/

/-- How the in-memory collaborators of the examples behave: the error (if any) each stage
returns, and the number of versions the metadata fetch finds. -/
structure FakeConfig where
  token : Except String String := .ok "secret"
  addressErr : Option String := none
  listErr : Option String := none
  fetchErr : Option String := none
  remoteVersions : Nat := 1
  saveErr : Option String := none
  writeErr : Option String := none

/-- In-memory module collaborators: the world is the list of the addresses in the catalog,
a submission is an identifier with its number of versions. -/
def AddModule.fake (cfg : FakeConfig) :
    AddModule.Collaborators (AddModule.Identifier × Nat) String (List String) where
  create id := (id, 0)
  list w :=
    match cfg.listErr with
    | some e => (.error e, w)
    | none => (.ok w, w)
  save m w :=
    match cfg.saveErr with
    | some e => (some e, w)
    | none => (none, w ++ [m.1.Namespace ++ "/" ++ m.1.Name ++ "/" ++ m.1.TargetSystem])
  path id := "modules/" ++ id.Namespace ++ "/" ++ id.Name ++ "/" ++ id.TargetSystem ++ ".json"
  identifier m := m.1
  string m := m.1.Namespace ++ "/" ++ m.1.Name ++ "/" ++ m.1.TargetSystem
  entryString e := e
  updateMetadata m w :=
    match cfg.fetchErr with
    | some e => ((some e, m), w)
    | none => ((none, (m.1, cfg.remoteVersions)), w)
  versions m := m.2
  repositoryURL m :=
    "https://github.com/" ++ m.1.Namespace ++ "/terraform-" ++ m.1.TargetSystem ++ "-" ++ m.1.Name
  parseModuleSource _ := cfg.addressErr

/-- The process environment around `AddModule.fake`: a successful writing adds the name of
the output file to the world. -/
def AddModule.fakeEnv (cfg : FakeConfig) :
    AddModule.Env (AddModule.Identifier × Nat) String (List String) where
  envAuthToken _ := cfg.token
  newStorage _ _ := AddModule.fake cfg
  safeWriteObjectToJSONFile file _ w :=
    match cfg.writeErr with
    | some e => (some e, w)
    | none => (none, w ++ [file])

/-- In-memory provider collaborators: the world is the list of the addresses in the catalog,
a submission is an identifier with its number of versions. -/
def AddProvider.fake (cfg : FakeConfig) :
    AddProvider.Collaborators (AddProvider.Identifier × Nat) String (List String) where
  create id := (id, 0)
  list w :=
    match cfg.listErr with
    | some e => (.error e, w)
    | none => (.ok w, w)
  save m w :=
    match cfg.saveErr with
    | some e => (some e, w)
    | none => (none, w ++ [m.1.Namespace ++ "/" ++ m.1.ProviderName])
  path id := "providers/" ++ id.Namespace ++ "/" ++ id.ProviderName ++ ".json"
  identifier m := m.1
  string m := m.1.Namespace ++ "/" ++ m.1.ProviderName
  entryString e := e
  updateMetadata m w :=
    match cfg.fetchErr with
    | some e => ((some e, m), w)
    | none => ((none, (m.1, cfg.remoteVersions)), w)
  versions m := m.2
  repositoryURL m :=
    "https://github.com/" ++ m.1.Namespace ++ "/terraform-provider-" ++ m.1.ProviderName
  parseProviderSource _ := cfg.addressErr

/-- The process environment around `AddProvider.fake`: a successful writing adds the name of
the output file to the world. -/
def AddProvider.fakeEnv (cfg : FakeConfig) :
    AddProvider.Env (AddProvider.Identifier × Nat) String (List String) where
  envAuthToken _ := cfg.token
  newStorage _ _ := AddProvider.fake cfg
  safeWriteObjectToJSONFile file _ w :=
    match cfg.writeErr with
    | some e => (some e, w)
    | none => (none, w ++ [file])

/-! ## Predicates used in the statements -/

/-- The input `rest` does not go on with a character of the class. -/
def StopsAt (cls : Char → Bool) (rest : List Char) : Prop :=
  ∀ c t, rest = c :: t → cls c = false

/-- The literal text between the namespace and the target of a module repository name. -/
def moduleInfix : List Char := "/terraform-".data

/-- The literal text between the namespace and the name of a provider repository name. -/
def providerInfix : List Char := "/terraform-provider-".data

/-- A repository name that contains a module match: some substring is a non-empty
alphanumeric namespace, `/terraform-`, an alphanumeric target, `-`, and an
alphanumeric-or-hyphen name (target and name possibly empty). -/
def AddModule.ContainsMatch (s : List Char) : Prop :=
  ∃ pre ns t n post, s = pre ++ (ns ++ (moduleInfix ++ (t ++ ('-' :: (n ++ post))))) ∧
    ns ≠ [] ∧ (∀ c ∈ ns, isAlnum c = true) ∧ (∀ c ∈ t, isAlnum c = true) ∧
    (∀ c ∈ n, isAlnumHyphen c = true)

/-- A lower-cased repository name that contains a provider match. -/
def AddProvider.ContainsMatch (s : List Char) : Prop :=
  ∃ pre ns n post, s = pre ++ (ns ++ (providerInfix ++ (n ++ post))) ∧
    ns ≠ [] ∧ (∀ c ∈ ns, isAlnum c = true) ∧ (∀ c ∈ n, isAlnumHyphen c = true)

/-- The module grammar of the specification, anchored at both ends (the most permissive
reading: the three segments may be empty). -/
def AddModule.AnchoredForm (s : List Char) : Prop :=
  ∃ ns t n, s = ns ++ (moduleInfix ++ (t ++ ('-' :: n))) ∧
    (∀ c ∈ ns, isAlnum c = true) ∧ (∀ c ∈ t, isAlnum c = true) ∧
    (∀ c ∈ n, isAlnumHyphen c = true)

/-- The provider grammar of the specification, anchored at both ends (the most permissive
reading: the two segments may be empty). -/
def AddProvider.AnchoredForm (s : List Char) : Prop :=
  ∃ ns n, s = ns ++ (providerInfix ++ n) ∧
    (∀ c ∈ ns, isAlnum c = true) ∧ (∀ c ∈ n, isAlnumHyphen c = true)

/-- The input begins with a module match: a non-empty alphanumeric namespace, `/terraform-`,
an alphanumeric target, `-` and an alphanumeric-or-hyphen name, followed by anything. -/
def AddModule.StartsWithMatch (s : List Char) : Prop :=
  ∃ ns t n post, s = ns ++ (moduleInfix ++ (t ++ ('-' :: (n ++ post)))) ∧
    ns ≠ [] ∧ (∀ c ∈ ns, isAlnum c = true) ∧ (∀ c ∈ t, isAlnum c = true) ∧
    (∀ c ∈ n, isAlnumHyphen c = true)

/-- The identifier `id` is built from the leftmost match in `s`: the match starts after `pre`,
no match starts at an earlier position, and the name goes on as far as its class allows. -/
def AddModule.LeftmostMatch (s : List Char) (id : AddModule.Identifier) : Prop :=
  ∃ pre ns t n post, s = pre ++ (ns ++ (moduleInfix ++ (t ++ ('-' :: (n ++ post))))) ∧
    id = ⟨String.mk ns, String.mk n, String.mk t⟩ ∧
    ns ≠ [] ∧ (∀ c ∈ ns, isAlnum c = true) ∧ (∀ c ∈ t, isAlnum c = true) ∧
    (∀ c ∈ n, isAlnumHyphen c = true) ∧ StopsAt isAlnumHyphen post ∧
    ∀ pre1 pre2, pre = pre1 ++ pre2 → pre2 ≠ [] →
      ¬ AddModule.StartsWithMatch
        (pre2 ++ (ns ++ (moduleInfix ++ (t ++ ('-' :: (n ++ post))))))

/-- The input begins with a provider match: a non-empty alphanumeric namespace,
`/terraform-provider-` and an alphanumeric-or-hyphen name, followed by anything. -/
def AddProvider.StartsWithMatch (s : List Char) : Prop :=
  ∃ ns n post, s = ns ++ (providerInfix ++ (n ++ post)) ∧
    ns ≠ [] ∧ (∀ c ∈ ns, isAlnum c = true) ∧ (∀ c ∈ n, isAlnumHyphen c = true)

/-- The identifier `id` is built from the leftmost match in the lower-cased name `s`: the
match starts after `pre`, no match starts at an earlier position, and the name goes on as far
as its class allows. -/
def AddProvider.LeftmostMatch (s : List Char) (id : AddProvider.Identifier) : Prop :=
  ∃ pre ns n post, s = pre ++ (ns ++ (providerInfix ++ (n ++ post))) ∧
    id = ⟨String.mk ns, String.mk n⟩ ∧
    ns ≠ [] ∧ (∀ c ∈ ns, isAlnum c = true) ∧ (∀ c ∈ n, isAlnumHyphen c = true) ∧
    StopsAt isAlnumHyphen post ∧
    ∀ pre1 pre2, pre = pre1 ++ pre2 → pre2 ≠ [] →
      ¬ AddProvider.StartsWithMatch (pre2 ++ (ns ++ (providerInfix ++ (n ++ post))))

/-! ## Facts about the matcher -/

theorem greedy_some_inv {α : Type} (cls : Char → Bool) (k : List Char → List Char → Option α) :
    ∀ (xs acc : List Char) (r : α), greedy cls k acc xs = some r →
      ∃ cap rest, xs = cap ++ rest ∧ (∀ c ∈ cap, cls c = true) ∧ k (acc ++ cap) rest = some r := by
  intro xs
  induction xs with
  | nil =>
    intro acc r h
    exact ⟨[], [], rfl, by simp, by simpa [greedy] using h⟩
  | cons x xs ih =>
    intro acc r h
    unfold greedy at h
    by_cases hx : cls x = true
    · rw [if_pos hx] at h
      cases hg : greedy cls k (acc ++ [x]) xs with
      | some r' =>
        rw [hg] at h
        obtain ⟨cap, rest, h1, h2, h3⟩ := ih _ _ hg
        refine ⟨x :: cap, rest, by simp [h1], ?_, ?_⟩
        · intro c hc
          rcases List.mem_cons.1 hc with rfl | hc
          · exact hx
          · exact h2 c hc
        · simp only [List.append_assoc, List.singleton_append] at h3
          simpa [h3] using h
      | none =>
        rw [hg] at h
        exact ⟨[], x :: xs, rfl, by simp, by simpa using h⟩
    · rw [if_neg hx] at h
      exact ⟨[], x :: xs, rfl, by simp, by simpa using h⟩

theorem greedy_run {α : Type} (cls : Char → Bool) (k : List Char → List Char → Option α) :
    ∀ (run acc rest : List Char) (r : α), (∀ c ∈ run, cls c = true) → StopsAt cls rest →
      k (acc ++ run) rest = some r → greedy cls k acc (run ++ rest) = some r := by
  intro run
  induction run with
  | nil =>
    intro acc rest r _ hstop hk
    cases rest with
    | nil => simpa [greedy] using hk
    | cons c t =>
      have hc := hstop c t rfl
      simpa [greedy, hc] using hk
  | cons x run ih =>
    intro acc rest r hrun hstop hk
    have hx : cls x = true := hrun x (List.mem_cons_self _ _)
    have := ih (acc ++ [x]) rest r (fun c hc => hrun c (List.mem_cons_of_mem _ hc)) hstop
      (by simpa using hk)
    simp [greedy, hx, this]

theorem matchHere_lits (l : List Char) (ns : Regexp) :
    ∀ (xs : List Char) (r : List String × List Char),
      matchHere (l.map Node.lit ++ ns) xs = some r ↔
        ∃ ys, xs = l ++ ys ∧ matchHere ns ys = some r := by
  induction l with
  | nil => intro xs r; simp
  | cons c l ih =>
    intro xs r
    cases xs with
    | nil => simp [matchHere]
    | cons x xs =>
      simp only [List.map_cons, List.cons_append, matchHere]
      by_cases hx : x = c
      · subst hx
        simp [ih]
      · simp [hx]


theorem matchHere_group_inv (name : String) (cls : Char → Bool) (min : Nat) (ns : Regexp)
    (xs : List Char) (r : List String × List Char)
    (h : matchHere (Node.group name cls min :: ns) xs = some r) :
    ∃ cap rest r', xs = cap ++ rest ∧ (∀ c ∈ cap, cls c = true) ∧ min ≤ cap.length ∧
      matchHere ns rest = some r' ∧ r = (String.mk cap :: r'.1, r'.2) := by
  unfold matchHere at h
  obtain ⟨cap, rest, h1, h2, h3⟩ := greedy_some_inv _ _ _ _ _ h
  simp only [List.nil_append] at h3
  by_cases hlen : cap.length < min
  · simp [hlen] at h3
  · rw [if_neg hlen] at h3
    cases hm : matchHere ns rest with
    | none => simp [hm] at h3
    | some r' =>
      simp only [hm, Option.map_some', Option.some.injEq] at h3
      exact ⟨cap, rest, r', h1, h2, Nat.le_of_not_lt hlen, hm, h3.symm⟩

theorem matchHere_group_run (name : String) (cls : Char → Bool) (min : Nat) (ns : Regexp)
    (run rest : List Char) (r' : List String × List Char)
    (hrun : ∀ c ∈ run, cls c = true) (hstop : StopsAt cls rest) (hmin : min ≤ run.length)
    (hm : matchHere ns rest = some r') :
    matchHere (Node.group name cls min :: ns) (run ++ rest)
      = some (String.mk run :: r'.1, r'.2) := by
  unfold matchHere
  apply greedy_run _ _ _ _ _ _ hrun hstop
  simp [Nat.not_lt.2 hmin, hm]

theorem stopsAt_cons {cls : Char → Bool} {c : Char} (t : List Char) (h : cls c = false) :
    StopsAt cls (c :: t) := by
  intro c' t' he
  cases he
  exact h

theorem stopsAt_nil (cls : Char → Bool) : StopsAt cls [] := by
  intro c t he
  cases he

theorem stopsAt_dropWhile (cls : Char → Bool) (l : List Char) :
    StopsAt cls (l.dropWhile cls) := by
  induction l with
  | nil => exact stopsAt_nil cls
  | cons x l ih =>
    by_cases hx : cls x = true
    · simpa [List.dropWhile, hx] using ih
    · have hx' : cls x = false := by simpa using hx
      simpa [List.dropWhile, hx'] using stopsAt_cons l hx'

theorem AddModule.module_re_eq :
    AddModule.re = Node.group "Namespace" isAlnum 1 ::
      (moduleInfix.map Node.lit ++ (Node.group "Target" isAlnum 0 ::
        (['-'].map Node.lit ++ [Node.group "Name" isAlnumHyphen 0]))) := rfl

theorem AddProvider.provider_re_eq :
    AddProvider.re = Node.group "Namespace" isAlnum 1 ::
      (providerInfix.map Node.lit ++ [Node.group "Name" isAlnumHyphen 0]) := rfl

theorem AddModule.module_matchHere_inv (xs : List Char) (r : List String × List Char)
    (h : matchHere AddModule.re xs = some r) :
    ∃ ns t n, r.1 = [String.mk ns, String.mk t, String.mk n] ∧
      xs = ns ++ (moduleInfix ++ (t ++ ('-' :: (n ++ r.2)))) ∧ ns ≠ [] ∧
      (∀ c ∈ ns, isAlnum c = true) ∧ (∀ c ∈ t, isAlnum c = true) ∧
      (∀ c ∈ n, isAlnumHyphen c = true) := by
  rw [AddModule.module_re_eq] at h
  obtain ⟨ns, r1, q1, e1, hns, hlen, hm1, hr1⟩ := matchHere_group_inv _ _ _ _ _ _ h
  obtain ⟨r2, e2, hm2⟩ := (matchHere_lits _ _ _ _).1 hm1
  obtain ⟨t, r3, q3, e3, ht, -, hm3, hr3⟩ := matchHere_group_inv _ _ _ _ _ _ hm2
  obtain ⟨r4, e4, hm4⟩ := (matchHere_lits _ _ _ _).1 hm3
  obtain ⟨n, r5, q5, e5, hn, -, hm5, hr5⟩ := matchHere_group_inv _ _ _ _ _ _ hm4
  simp only [matchHere, Option.some.injEq] at hm5
  subst hm5
  subst hr5
  subst hr3
  subst hr1
  refine ⟨ns, t, n, rfl, ?_, ?_, hns, ht, hn⟩
  · rw [e1, e2, e3, e4, e5]
    rfl
  · intro h0
    subst h0
    simp at hlen

theorem AddModule.module_matchHere_of (ns t n rest : List Char) (h0 : ns ≠ [])
    (hns : ∀ c ∈ ns, isAlnum c = true) (ht : ∀ c ∈ t, isAlnum c = true)
    (hn : ∀ c ∈ n, isAlnumHyphen c = true) (hstop : StopsAt isAlnumHyphen rest) :
    matchHere AddModule.re (ns ++ (moduleInfix ++ (t ++ ('-' :: (n ++ rest)))))
      = some ([String.mk ns, String.mk t, String.mk n], rest) := by
  rw [AddModule.module_re_eq]
  have h5 : matchHere [Node.group "Name" isAlnumHyphen 0] (n ++ rest)
      = some ([String.mk n], rest) :=
    matchHere_group_run _ _ _ _ _ _ ([], rest) hn hstop (Nat.zero_le _) (by simp [matchHere])
  have h4 : matchHere (['-'].map Node.lit ++ [Node.group "Name" isAlnumHyphen 0])
      ('-' :: (n ++ rest)) = some ([String.mk n], rest) :=
    (matchHere_lits _ _ _ _).2 ⟨_, rfl, h5⟩
  have h3 := matchHere_group_run "Target" isAlnum 0 _ t ('-' :: (n ++ rest)) _ ht
    (stopsAt_cons _ (by decide)) (Nat.zero_le _) h4
  have h2 := (matchHere_lits moduleInfix _ (moduleInfix ++ (t ++ ('-' :: (n ++ rest)))) _).2
    ⟨_, rfl, h3⟩
  have hlen : 1 ≤ ns.length := by
    cases ns with
    | nil => exact absurd rfl h0
    | cons _ _ => simp
  exact matchHere_group_run "Namespace" isAlnum 1 _ ns _ _ hns
    (stopsAt_cons (c := '/') _ (by decide)) hlen h2


theorem AddProvider.provider_matchHere_inv (xs : List Char) (r : List String × List Char)
    (h : matchHere AddProvider.re xs = some r) :
    ∃ ns n, r.1 = [String.mk ns, String.mk n] ∧
      xs = ns ++ (providerInfix ++ (n ++ r.2)) ∧ ns ≠ [] ∧
      (∀ c ∈ ns, isAlnum c = true) ∧ (∀ c ∈ n, isAlnumHyphen c = true) := by
  rw [AddProvider.provider_re_eq] at h
  obtain ⟨ns, r1, q1, e1, hns, hlen, hm1, hr1⟩ := matchHere_group_inv _ _ _ _ _ _ h
  obtain ⟨r2, e2, hm2⟩ := (matchHere_lits _ _ _ _).1 hm1
  obtain ⟨n, r3, q3, e3, hn, -, hm3, hr3⟩ := matchHere_group_inv _ _ _ _ _ _ hm2
  simp only [matchHere, Option.some.injEq] at hm3
  subst hm3
  subst hr3
  subst hr1
  refine ⟨ns, n, rfl, ?_, ?_, hns, hn⟩
  · rw [e1, e2, e3]
  · intro h0
    subst h0
    simp at hlen

theorem AddProvider.provider_matchHere_of (ns n rest : List Char) (h0 : ns ≠ [])
    (hns : ∀ c ∈ ns, isAlnum c = true) (hn : ∀ c ∈ n, isAlnumHyphen c = true)
    (hstop : StopsAt isAlnumHyphen rest) :
    matchHere AddProvider.re (ns ++ (providerInfix ++ (n ++ rest)))
      = some ([String.mk ns, String.mk n], rest) := by
  rw [AddProvider.provider_re_eq]
  have h3 : matchHere [Node.group "Name" isAlnumHyphen 0] (n ++ rest)
      = some ([String.mk n], rest) :=
    matchHere_group_run _ _ _ _ _ _ ([], rest) hn hstop (Nat.zero_le _) (by simp [matchHere])
  have h2 := (matchHere_lits providerInfix _ (providerInfix ++ (n ++ rest)) _).2 ⟨_, rfl, h3⟩
  have hlen : 1 ≤ ns.length := by
    cases ns with
    | nil => exact absurd rfl h0
    | cons _ _ => simp
  exact matchHere_group_run "Namespace" isAlnum 1 _ ns _ _ hns
    (stopsAt_cons (c := '/') _ (by decide)) hlen h2

theorem findFrom_of_matchAt (re : Regexp) (xs : List Char) (m : List String)
    (h : matchAt re xs = some m) : findFrom re xs = some m := by
  cases xs with
  | nil => simpa [findFrom] using h
  | cons c cs => simp [findFrom, h]

theorem findFrom_inv (re : Regexp) :
    ∀ (xs : List Char) (m : List String), findFrom re xs = some m →
      ∃ pre suf, xs = pre ++ suf ∧ matchAt re suf = some m := by
  intro xs
  induction xs with
  | nil =>
    intro m h
    exact ⟨[], [], rfl, by simpa [findFrom] using h⟩
  | cons c cs ih =>
    intro m h
    unfold findFrom at h
    cases hm : matchAt re (c :: cs) with
    | some m' =>
      rw [hm] at h
      exact ⟨[], c :: cs, rfl, by simpa [hm] using h⟩
    | none =>
      rw [hm] at h
      obtain ⟨pre, suf, e, hs⟩ := ih m h
      exact ⟨c :: pre, suf, by simp [e], hs⟩

theorem findFrom_isSome (re : Regexp) (suf : List Char) (m : List String)
    (h : matchAt re suf = some m) :
    ∀ pre : List Char, ∃ m', findFrom re (pre ++ suf) = some m' := by
  intro pre
  induction pre with
  | nil => exact ⟨m, findFrom_of_matchAt re suf m h⟩
  | cons c pre ih =>
    obtain ⟨m', hm'⟩ := ih
    cases hc : matchAt re (c :: (pre ++ suf)) with
    | some m'' => exact ⟨m'', by simp [findFrom, hc]⟩
    | none => exact ⟨m', by simp [findFrom, hc, hm']⟩

theorem takeWhile_of_run (cls : Char → Bool) (run rest : List Char)
    (hrun : ∀ c ∈ run, cls c = true) (hstop : StopsAt cls rest) :
    (run ++ rest).takeWhile cls = run ∧ (run ++ rest).dropWhile cls = rest := by
  induction run with
  | nil =>
    cases rest with
    | nil => simp
    | cons c t =>
      have hc := hstop c t rfl
      simp [List.takeWhile, List.dropWhile, hc]
  | cons x run ih =>
    have hx : cls x = true := hrun x (List.mem_cons_self _ _)
    have := ih (fun c hc => hrun c (List.mem_cons_of_mem _ hc))
    simp [List.takeWhile, List.dropWhile, hx, this]

theorem AddModule.module_subexpIndex_namespace : subexpIndex AddModule.re "Namespace" = 1 := by decide
theorem AddModule.subexpIndex_target : subexpIndex AddModule.re "Target" = 2 := by decide
theorem AddModule.module_subexpIndex_name : subexpIndex AddModule.re "Name" = 3 := by decide
theorem AddProvider.provider_subexpIndex_namespace : subexpIndex AddProvider.re "Namespace" = 1 := by
  decide
theorem AddProvider.provider_subexpIndex_name : subexpIndex AddProvider.re "Name" = 2 := by decide

theorem AddModule.module_parseStage_ok_inv (repository : String) (id : AddModule.Identifier)
    (h : AddModule.parseStage repository = .ok id) :
    ∃ pre ns t n post,
      repository.data = pre ++ (ns ++ (moduleInfix ++ (t ++ ('-' :: (n ++ post))))) ∧
      id = ⟨String.mk ns, String.mk n, String.mk t⟩ ∧ ns ≠ [] ∧
      (∀ c ∈ ns, isAlnum c = true) ∧ (∀ c ∈ t, isAlnum c = true) ∧
      (∀ c ∈ n, isAlnumHyphen c = true) := by
  unfold AddModule.parseStage findStringSubmatch at h
  cases hf : findFrom AddModule.re repository.data with
  | none => simp [hf] at h
  | some m =>
    simp only [hf, Except.ok.injEq] at h
    obtain ⟨pre, suf, e, hs⟩ := findFrom_inv _ _ _ hf
    unfold matchAt at hs
    cases hm : matchHere AddModule.re suf with
    | none => simp [hm] at hs
    | some r =>
      simp only [hm, Option.map_some', Option.some.injEq] at hs
      obtain ⟨ns, t, n, hr, hx, h0, hns, ht, hn⟩ := AddModule.module_matchHere_inv _ _ hm
      refine ⟨pre, ns, t, n, r.2, by rw [e, hx], ?_, h0, hns, ht, hn⟩
      rw [← h, ← hs, hr, AddModule.module_subexpIndex_namespace, AddModule.subexpIndex_target,
        AddModule.module_subexpIndex_name]
      rfl

theorem AddModule.module_parseStage_error_inv (repository e : String)
    (h : AddModule.parseStage repository = .error e) :
    e = "Invalid repository name: " ++ repository ∧
      ¬ AddModule.ContainsMatch repository.data := by
  unfold AddModule.parseStage findStringSubmatch at h
  cases hf : findFrom AddModule.re repository.data with
  | some m => simp [hf] at h
  | none =>
    simp only [hf, Except.error.injEq] at h
    refine ⟨h.symm, ?_⟩
    rintro ⟨pre, ns, t, n, post, e1, h0, hns, ht, hn⟩
    have hsplit : n ++ post = (n ++ post.takeWhile isAlnumHyphen)
        ++ post.dropWhile isAlnumHyphen := by
      rw [List.append_assoc, List.takeWhile_append_dropWhile]
    have hn' : ∀ c ∈ n ++ post.takeWhile isAlnumHyphen, isAlnumHyphen c = true := by
      intro c hc
      rcases List.mem_append.1 hc with hc | hc
      · exact hn c hc
      · exact (List.mem_takeWhile_imp hc)
    have hm := AddModule.module_matchHere_of ns t _ _ h0 hns ht hn'
      (stopsAt_dropWhile isAlnumHyphen post)
    rw [← hsplit] at hm
    have hat : matchAt AddModule.re (ns ++ (moduleInfix ++ (t ++ ('-' :: (n ++ post))))) = some
        (String.mk ((ns ++ (moduleInfix ++ (t ++ ('-' :: (n ++ post))))).take
          ((ns ++ (moduleInfix ++ (t ++ ('-' :: (n ++ post))))).length
            - (post.dropWhile isAlnumHyphen).length))
          :: [String.mk ns, String.mk t, String.mk (n ++ post.takeWhile isAlnumHyphen)]) := by
      simp [matchAt, hm]
    obtain ⟨m', hm'⟩ := findFrom_isSome AddModule.re _ _ hat pre
    rw [← e1, hf] at hm'
    cases hm'


theorem AddModule.parseStage_of_match (repository : String) (ns t n rest : List Char)
    (e : repository.data = ns ++ (moduleInfix ++ (t ++ ('-' :: (n ++ rest)))))
    (h0 : ns ≠ []) (hns : ∀ c ∈ ns, isAlnum c = true) (ht : ∀ c ∈ t, isAlnum c = true)
    (hn : ∀ c ∈ n, isAlnumHyphen c = true) (hstop : StopsAt isAlnumHyphen rest) :
    AddModule.parseStage repository = .ok ⟨String.mk ns, String.mk n, String.mk t⟩ := by
  have hm := AddModule.module_matchHere_of ns t n rest h0 hns ht hn hstop
  have hf := findFrom_of_matchAt AddModule.re _ _
    (show matchAt AddModule.re (ns ++ (moduleInfix ++ (t ++ ('-' :: (n ++ rest))))) = some _ by
      rw [matchAt, hm]; rfl)
  unfold AddModule.parseStage findStringSubmatch
  rw [e, hf]
  simp only [AddModule.module_subexpIndex_namespace, AddModule.subexpIndex_target,
    AddModule.module_subexpIndex_name]
  rfl

theorem AddProvider.provider_parseStage_ok_inv (lower : Char → Char) (repository : String)
    (id : AddProvider.Identifier) (h : AddProvider.parseStage lower repository = .ok id) :
    ∃ pre ns n post,
      (toLower lower repository).data = pre ++ (ns ++ (providerInfix ++ (n ++ post))) ∧
      id = ⟨String.mk ns, String.mk n⟩ ∧ ns ≠ [] ∧
      (∀ c ∈ ns, isAlnum c = true) ∧ (∀ c ∈ n, isAlnumHyphen c = true) := by
  unfold AddProvider.parseStage findStringSubmatch at h
  cases hf : findFrom AddProvider.re (toLower lower repository).data with
  | none => simp [hf] at h
  | some m =>
    simp only [hf, Except.ok.injEq] at h
    obtain ⟨pre, suf, e, hs⟩ := findFrom_inv _ _ _ hf
    unfold matchAt at hs
    cases hm : matchHere AddProvider.re suf with
    | none => simp [hm] at hs
    | some r =>
      simp only [hm, Option.map_some', Option.some.injEq] at hs
      obtain ⟨ns, n, hr, hx, h0, hns, hn⟩ := AddProvider.provider_matchHere_inv _ _ hm
      refine ⟨pre, ns, n, r.2, by rw [e, hx], ?_, h0, hns, hn⟩
      rw [← h, ← hs, hr, AddProvider.provider_subexpIndex_namespace, AddProvider.provider_subexpIndex_name]
      rfl

theorem AddProvider.provider_parseStage_error_inv (lower : Char → Char) (repository e : String)
    (h : AddProvider.parseStage lower repository = .error e) :
    e = "Invalid repository name: " ++ repository ∧
      ¬ AddProvider.ContainsMatch (toLower lower repository).data := by
  unfold AddProvider.parseStage findStringSubmatch at h
  cases hf : findFrom AddProvider.re (toLower lower repository).data with
  | some m => simp [hf] at h
  | none =>
    simp only [hf, Except.error.injEq] at h
    refine ⟨h.symm, ?_⟩
    rintro ⟨pre, ns, n, post, e1, h0, hns, hn⟩
    have hsplit : n ++ post = (n ++ post.takeWhile isAlnumHyphen)
        ++ post.dropWhile isAlnumHyphen := by
      rw [List.append_assoc, List.takeWhile_append_dropWhile]
    have hn' : ∀ c ∈ n ++ post.takeWhile isAlnumHyphen, isAlnumHyphen c = true := by
      intro c hc
      rcases List.mem_append.1 hc with hc | hc
      · exact hn c hc
      · exact (List.mem_takeWhile_imp hc)
    have hm := AddProvider.provider_matchHere_of ns _ _ h0 hns hn'
      (stopsAt_dropWhile isAlnumHyphen post)
    rw [← hsplit] at hm
    have hat : matchAt AddProvider.re (ns ++ (providerInfix ++ (n ++ post))) = some
        (String.mk ((ns ++ (providerInfix ++ (n ++ post))).take
          ((ns ++ (providerInfix ++ (n ++ post))).length
            - (post.dropWhile isAlnumHyphen).length))
          :: [String.mk ns, String.mk (n ++ post.takeWhile isAlnumHyphen)]) := by
      simp [matchAt, hm]
    obtain ⟨m', hm'⟩ := findFrom_isSome AddProvider.re _ _ hat pre
    rw [← e1, hf] at hm'
    cases hm'

theorem matchAt_eq_none (re : Regexp) (xs : List Char) :
    matchAt re xs = none ↔ matchHere re xs = none := by
  unfold matchAt
  cases matchHere re xs <;> simp

theorem findFrom_leftmost_inv (re : Regexp) :
    ∀ (xs : List Char) (m : List String), findFrom re xs = some m →
      ∃ pre suf, xs = pre ++ suf ∧ matchAt re suf = some m ∧
        ∀ pre1 pre2, pre = pre1 ++ pre2 → pre2 ≠ [] → matchAt re (pre2 ++ suf) = none := by
  intro xs
  induction xs with
  | nil =>
    intro m h
    refine ⟨[], [], rfl, by simpa [findFrom] using h, ?_⟩
    intro pre1 pre2 e hne
    have := List.append_eq_nil.1 e.symm
    exact absurd this.2 hne
  | cons c cs ih =>
    intro m h
    unfold findFrom at h
    cases hm : matchAt re (c :: cs) with
    | some m' =>
      rw [hm] at h
      refine ⟨[], c :: cs, rfl, by simpa [hm] using h, ?_⟩
      intro pre1 pre2 e hne
      have := List.append_eq_nil.1 e.symm
      exact absurd this.2 hne
    | none =>
      rw [hm] at h
      obtain ⟨pre, suf, e, hs, hleft⟩ := ih m h
      refine ⟨c :: pre, suf, by simp [e], hs, ?_⟩
      intro pre1 pre2 e2 hne
      cases pre1 with
      | nil =>
        simp only [List.nil_append] at e2
        rw [← e2, List.cons_append, ← e]
        exact hm
      | cons d pre1 =>
        simp only [List.cons_append, List.cons.injEq] at e2
        exact hleft pre1 pre2 e2.2 hne

theorem findFrom_of_leftmost (re : Regexp) (suf : List Char) (m : List String)
    (hs : matchAt re suf = some m) :
    ∀ pre : List Char,
      (∀ pre1 pre2, pre = pre1 ++ pre2 → pre2 ≠ [] → matchAt re (pre2 ++ suf) = none) →
      findFrom re (pre ++ suf) = some m := by
  intro pre
  induction pre with
  | nil => intro _; exact findFrom_of_matchAt re suf m hs
  | cons c pre ih =>
    intro hleft
    have h1 : matchAt re (c :: (pre ++ suf)) = none :=
      hleft [] (c :: pre) rfl (by simp)
    have h2 := ih (fun pre1 pre2 e hne => hleft (c :: pre1) pre2 (by simp [e]) hne)
    show findFrom re (c :: (pre ++ suf)) = some m
    unfold findFrom
    rw [h1]
    exact h2

theorem AddModule.module_starts_of_matchHere (xs : List Char) (r : List String × List Char)
    (h : matchHere AddModule.re xs = some r) : AddModule.StartsWithMatch xs := by
  obtain ⟨ns, t, n, -, e, h0, hns, ht, hn⟩ := AddModule.module_matchHere_inv xs r h
  exact ⟨ns, t, n, r.2, e, h0, hns, ht, hn⟩

theorem AddModule.module_matchHere_of_starts (ns t n post : List Char) (h0 : ns ≠ [])
    (hns : ∀ c ∈ ns, isAlnum c = true) (ht : ∀ c ∈ t, isAlnum c = true)
    (hn : ∀ c ∈ n, isAlnumHyphen c = true) :
    matchHere AddModule.re (ns ++ (moduleInfix ++ (t ++ ('-' :: (n ++ post)))))
      = some ([String.mk ns, String.mk t, String.mk (n ++ post.takeWhile isAlnumHyphen)],
          post.dropWhile isAlnumHyphen) := by
  have hsplit : n ++ post = (n ++ post.takeWhile isAlnumHyphen)
      ++ post.dropWhile isAlnumHyphen := by
    rw [List.append_assoc, List.takeWhile_append_dropWhile]
  have hn' : ∀ c ∈ n ++ post.takeWhile isAlnumHyphen, isAlnumHyphen c = true := by
    intro c hc
    rcases List.mem_append.1 hc with hc | hc
    · exact hn c hc
    · exact (List.mem_takeWhile_imp hc)
  have hm := AddModule.module_matchHere_of ns t _ _ h0 hns ht hn'
    (stopsAt_dropWhile isAlnumHyphen post)
  rw [← hsplit] at hm
  exact hm

theorem AddModule.module_matchHere_none (xs : List Char)
    (h : ¬ AddModule.StartsWithMatch xs) : matchHere AddModule.re xs = none := by
  cases hm : matchHere AddModule.re xs with
  | none => rfl
  | some r => exact absurd (AddModule.module_starts_of_matchHere xs r hm) h

theorem takeWhile_nil_stops (cls : Char → Bool) (l : List Char)
    (h : l.takeWhile cls = []) : StopsAt cls l := by
  intro c t e
  subst e
  by_cases hc : cls c = true
  · simp [List.takeWhile, hc] at h
  · simpa using hc

theorem AddModule.module_parse_leftmost (repository : String) (id : AddModule.Identifier) :
    AddModule.parseStage repository = .ok id ↔ AddModule.LeftmostMatch repository.data id := by
  constructor
  · intro h
    unfold AddModule.parseStage findStringSubmatch at h
    cases hf : findFrom AddModule.re repository.data with
    | none => simp [hf] at h
    | some m =>
      simp only [hf, Except.ok.injEq] at h
      obtain ⟨pre, suf, e, hs, hleft⟩ := findFrom_leftmost_inv _ _ _ hf
      unfold matchAt at hs
      cases hm : matchHere AddModule.re suf with
      | none => simp [hm] at hs
      | some r =>
        simp only [hm, Option.map_some', Option.some.injEq] at hs
        obtain ⟨ns, t, n, hr, hx, h0, hns, ht, hn⟩ := AddModule.module_matchHere_inv _ _ hm
        have hm2 := AddModule.module_matchHere_of_starts ns t n r.2 h0 hns ht hn
        rw [← hx, hm] at hm2
        have hr2 := congrArg Prod.fst (Option.some.inj hm2)
        have hr3 := congrArg Prod.snd (Option.some.inj hm2)
        simp only [hr] at hr2
        have htw : r.2.takeWhile isAlnumHyphen = [] := by
          have := congrArg String.data (List.cons.inj (List.cons.inj
            (List.cons.inj hr2).2).2).1
          simpa using this
        refine ⟨pre, ns, t, n, r.2, by rw [e, hx], ?_, h0, hns, ht, hn,
          takeWhile_nil_stops _ _ htw, ?_⟩
        · rw [← h, ← hs, hr, AddModule.module_subexpIndex_namespace,
            AddModule.subexpIndex_target, AddModule.module_subexpIndex_name]
          rfl
        · intro pre1 pre2 e2 hne hst
          have hnone := hleft pre1 pre2 e2 hne
          rw [matchAt_eq_none, hx] at hnone
          obtain ⟨ns', t', n', post', e', h0', hns', ht', hn'⟩ := hst
          have := AddModule.module_matchHere_of_starts ns' t' n' post' h0' hns' ht' hn'
          rw [← e', hnone] at this
          cases this
  · rintro ⟨pre, ns, t, n, post, e, hid, h0, hns, ht, hn, hstop, hleft⟩
    have hm := AddModule.module_matchHere_of ns t n post h0 hns ht hn hstop
    have hat : matchAt AddModule.re (ns ++ (moduleInfix ++ (t ++ ('-' :: (n ++ post))))) = some
        (String.mk ((ns ++ (moduleInfix ++ (t ++ ('-' :: (n ++ post))))).take
          ((ns ++ (moduleInfix ++ (t ++ ('-' :: (n ++ post))))).length - post.length))
          :: [String.mk ns, String.mk t, String.mk n]) := by
      simp [matchAt, hm]
    have hf := findFrom_of_leftmost AddModule.re _ _ hat pre
      (fun pre1 pre2 e2 hne => (matchAt_eq_none _ _).2
        (AddModule.module_matchHere_none _ (hleft pre1 pre2 e2 hne)))
    unfold AddModule.parseStage findStringSubmatch
    rw [e, hf, hid]
    simp only [AddModule.module_subexpIndex_namespace, AddModule.subexpIndex_target,
      AddModule.module_subexpIndex_name]
    rfl

theorem AddProvider.provider_starts_of_matchHere (xs : List Char)
    (r : List String × List Char) (h : matchHere AddProvider.re xs = some r) :
    AddProvider.StartsWithMatch xs := by
  obtain ⟨ns, n, -, e, h0, hns, hn⟩ := AddProvider.provider_matchHere_inv xs r h
  exact ⟨ns, n, r.2, e, h0, hns, hn⟩

theorem AddProvider.provider_matchHere_of_starts (ns n post : List Char) (h0 : ns ≠ [])
    (hns : ∀ c ∈ ns, isAlnum c = true) (hn : ∀ c ∈ n, isAlnumHyphen c = true) :
    matchHere AddProvider.re (ns ++ (providerInfix ++ (n ++ post)))
      = some ([String.mk ns, String.mk (n ++ post.takeWhile isAlnumHyphen)],
          post.dropWhile isAlnumHyphen) := by
  have hsplit : n ++ post = (n ++ post.takeWhile isAlnumHyphen)
      ++ post.dropWhile isAlnumHyphen := by
    rw [List.append_assoc, List.takeWhile_append_dropWhile]
  have hn' : ∀ c ∈ n ++ post.takeWhile isAlnumHyphen, isAlnumHyphen c = true := by
    intro c hc
    rcases List.mem_append.1 hc with hc | hc
    · exact hn c hc
    · exact (List.mem_takeWhile_imp hc)
  have hm := AddProvider.provider_matchHere_of ns _ _ h0 hns hn'
    (stopsAt_dropWhile isAlnumHyphen post)
  rw [← hsplit] at hm
  exact hm

theorem AddProvider.provider_matchHere_none (xs : List Char)
    (h : ¬ AddProvider.StartsWithMatch xs) : matchHere AddProvider.re xs = none := by
  cases hm : matchHere AddProvider.re xs with
  | none => rfl
  | some r => exact absurd (AddProvider.provider_starts_of_matchHere xs r hm) h

theorem AddProvider.provider_parse_leftmost (lower : Char → Char) (repository : String)
    (id : AddProvider.Identifier) :
    AddProvider.parseStage lower repository = .ok id ↔
      AddProvider.LeftmostMatch (toLower lower repository).data id := by
  constructor
  · intro h
    unfold AddProvider.parseStage findStringSubmatch at h
    cases hf : findFrom AddProvider.re (toLower lower repository).data with
    | none => simp [hf] at h
    | some m =>
      simp only [hf, Except.ok.injEq] at h
      obtain ⟨pre, suf, e, hs, hleft⟩ := findFrom_leftmost_inv _ _ _ hf
      unfold matchAt at hs
      cases hm : matchHere AddProvider.re suf with
      | none => simp [hm] at hs
      | some r =>
        simp only [hm, Option.map_some', Option.some.injEq] at hs
        obtain ⟨ns, n, hr, hx, h0, hns, hn⟩ := AddProvider.provider_matchHere_inv _ _ hm
        have hm2 := AddProvider.provider_matchHere_of_starts ns n r.2 h0 hns hn
        rw [← hx, hm] at hm2
        have hr2 := congrArg Prod.fst (Option.some.inj hm2)
        simp only [hr] at hr2
        have htw : r.2.takeWhile isAlnumHyphen = [] := by
          have := congrArg String.data (List.cons.inj (List.cons.inj hr2).2).1
          simpa using this
        refine ⟨pre, ns, n, r.2, by rw [e, hx], ?_, h0, hns, hn,
          takeWhile_nil_stops _ _ htw, ?_⟩
        · rw [← h, ← hs, hr, AddProvider.provider_subexpIndex_namespace,
            AddProvider.provider_subexpIndex_name]
          rfl
        · intro pre1 pre2 e2 hne hst
          have hnone := hleft pre1 pre2 e2 hne
          rw [matchAt_eq_none, hx] at hnone
          obtain ⟨ns', n', post', e', h0', hns', hn'⟩ := hst
          have := AddProvider.provider_matchHere_of_starts ns' n' post' h0' hns' hn'
          rw [← e', hnone] at this
          cases this
  · rintro ⟨pre, ns, n, post, e, hid, h0, hns, hn, hstop, hleft⟩
    have hm := AddProvider.provider_matchHere_of ns n post h0 hns hn hstop
    have hat : matchAt AddProvider.re (ns ++ (providerInfix ++ (n ++ post))) = some
        (String.mk ((ns ++ (providerInfix ++ (n ++ post))).take
          ((ns ++ (providerInfix ++ (n ++ post))).length - post.length))
          :: [String.mk ns, String.mk n]) := by
      simp [matchAt, hm]
    have hf := findFrom_of_leftmost AddProvider.re _ _ hat pre
      (fun pre1 pre2 e2 hne => (matchAt_eq_none _ _).2
        (AddProvider.provider_matchHere_none _ (hleft pre1 pre2 e2 hne)))
    unfold AddProvider.parseStage findStringSubmatch
    rw [e, hf, hid]
    simp only [AddProvider.provider_subexpIndex_namespace,
      AddProvider.provider_subexpIndex_name]
    rfl

theorem asciiLower_idem (c : Char) : asciiLower (asciiLower c) = asciiLower c := by
  unfold asciiLower
  by_cases h : 'A' ≤ c ∧ c ≤ 'Z'
  · rw [if_pos h]
    have h1 : 65 ≤ c.toNat := h.1
    have h2 : c.toNat ≤ 90 := h.2
    generalize c.toNat = k at h1 h2
    interval_cases k <;> decide
  · simp [h]

theorem toLower_fixed (lower : Char → Char)
    (hfix : ∀ c, isAlnumHyphen (lower c) = true → lower (lower c) = lower c)
    (s : String) (part : List Char) (hpart : ∀ c ∈ part, c ∈ (toLower lower s).data)
    (hcls : ∀ c ∈ part, isAlnumHyphen c = true) :
    toLower lower (String.mk part) = String.mk part := by
  unfold toLower
  congr 1
  show part.map lower = part
  have : ∀ c ∈ part, lower c = c := by
    intro c hc
    have hm := hpart c hc
    have hk := hcls c hc
    simp only [toLower, List.mem_map] at hm
    obtain ⟨c', -, rfl⟩ := hm
    exact hfix c' hk
  calc part.map lower = part.map id := List.map_congr_left this
    _ = part := List.map_id part

theorem isAlnumHyphen_of_isAlnum (c : Char) (h : isAlnum c = true) :
    isAlnumHyphen c = true := by
  simp [isAlnumHyphen, h]

/-! ## The pipeline after the parse stage -/

theorem AddModule.module_pipeline_of_parse_error {M E σ : Type} (lower : Char → Char)
    (S : AddModule.Collaborators M E σ) (repository : String) (w : σ) (e : String)
    (h : AddModule.parseStage repository = .error e) :
    AddModule.pipeline lower S repository w = ⟨some e, {}, [], w⟩ := by
  simp only [AddModule.pipeline, h]

theorem AddModule.module_calls_of_parse_ok {M E σ : Type} (lower : Char → Char)
    (S : AddModule.Collaborators M E σ) (repository : String) (w : σ)
    (id : AddModule.Identifier) (h : AddModule.parseStage repository = .ok id) :
    ∃ tl, (AddModule.pipeline lower S repository w).calls = AddModule.Call.create id :: tl ∧
      ∀ id', AddModule.Call.create id' ∉ tl := by
  simp only [AddModule.pipeline, h]
  repeat' split
  all_goals simp

theorem AddModule.module_parse_ok_of_create {M E σ : Type} (lower : Char → Char)
    (S : AddModule.Collaborators M E σ) (repository : String) (w : σ)
    (id : AddModule.Identifier)
    (h : AddModule.Call.create id ∈ (AddModule.pipeline lower S repository w).calls) :
    AddModule.parseStage repository = .ok id := by
  cases hp : AddModule.parseStage repository with
  | error e => simp [AddModule.module_pipeline_of_parse_error lower S repository w e hp] at h
  | ok id' =>
    obtain ⟨tl, e, hno⟩ := AddModule.module_calls_of_parse_ok lower S repository w id' hp
    rw [e] at h
    rcases List.mem_cons.1 h with h | h
    · cases h; rfl
    · exact absurd h (hno id)

theorem AddProvider.provider_pipeline_of_parse_error {M E σ : Type} (lower : Char → Char)
    (S : AddProvider.Collaborators M E σ) (repository : String) (w : σ) (e : String)
    (h : AddProvider.parseStage lower repository = .error e) :
    AddProvider.pipeline lower S repository w = ⟨some e, {}, [], w⟩ := by
  simp only [AddProvider.pipeline, h]

theorem AddProvider.provider_calls_of_parse_ok {M E σ : Type} (lower : Char → Char)
    (S : AddProvider.Collaborators M E σ) (repository : String) (w : σ)
    (id : AddProvider.Identifier) (h : AddProvider.parseStage lower repository = .ok id) :
    ∃ tl, (AddProvider.pipeline lower S repository w).calls
        = AddProvider.Call.create id :: tl ∧
      ∀ id', AddProvider.Call.create id' ∉ tl := by
  simp only [AddProvider.pipeline, h]
  repeat' split
  all_goals simp

theorem AddProvider.provider_parse_ok_of_create {M E σ : Type} (lower : Char → Char)
    (S : AddProvider.Collaborators M E σ) (repository : String) (w : σ)
    (id : AddProvider.Identifier)
    (h : AddProvider.Call.create id ∈ (AddProvider.pipeline lower S repository w).calls) :
    AddProvider.parseStage lower repository = .ok id := by
  cases hp : AddProvider.parseStage lower repository with
  | error e => simp [AddProvider.provider_pipeline_of_parse_error lower S repository w e hp] at h
  | ok id' =>
    obtain ⟨tl, e, hno⟩ := AddProvider.provider_calls_of_parse_ok lower S repository w id' hp
    rw [e] at h
    rcases List.mem_cons.1 h with h | h
    · cases h; rfl
    · exact absurd h (hno id)

theorem toLower_congr (lower lower' : Char → Char) (s : String)
    (h : ∀ c ∈ s.data, lower c = lower' c) : toLower lower s = toLower lower' s := by
  unfold toLower
  rw [List.map_congr_left h]

/-! ## The parse stage -/

/-- C1: for every `ns ++ "/terraform-" ++ t ++ "-" ++ n` with `ns` a non-empty run of ASCII
letters and digits, `t` a run of ASCII letters and digits and `n` a run of ASCII letters,
digits and hyphens, the parse stage of add-module succeeds with `Namespace = ns`,
`TargetSystem = t` and `Name = n`, the case of every character unchanged, and that identifier
is the one (and only one) handed to `storage.Create`. -/
theorem AddModule.parse_segments (ns t n : String) (hns0 : ns ≠ "")
    (hns : ∀ c ∈ ns.data, isAlnum c = true) (ht : ∀ c ∈ t.data, isAlnum c = true)
    (hn : ∀ c ∈ n.data, isAlnumHyphen c = true) :
    AddModule.parseStage (ns ++ "/terraform-" ++ t ++ "-" ++ n)
        = .ok { Namespace := ns, TargetSystem := t, Name := n } ∧
      ∀ (M E σ : Type) (lower : Char → Char) (S : AddModule.Collaborators M E σ) (w : σ),
        ∃ tl, (AddModule.pipeline lower S (ns ++ "/terraform-" ++ t ++ "-" ++ n) w).calls
            = AddModule.Call.create { Namespace := ns, TargetSystem := t, Name := n } :: tl ∧
          ∀ id', AddModule.Call.create id' ∉ tl := by
  have hp : AddModule.parseStage (ns ++ "/terraform-" ++ t ++ "-" ++ n)
      = .ok { Namespace := ns, TargetSystem := t, Name := n } := by
    refine AddModule.parseStage_of_match _ ns.data t.data n.data [] ?_ ?_ hns ht hn
      (stopsAt_nil _)
    · simp [String.data_append, moduleInfix]
    · intro h
      apply hns0
      cases ns
      simp_all
  exact ⟨hp, fun M E σ lower S w => AddModule.module_calls_of_parse_ok lower S _ w _ hp⟩

/-- Witness of C1: `hashicorp/terraform-aws-vpc`. -/
theorem AddModule.parse_segments_witness :
    AddModule.parseStage "hashicorp/terraform-aws-vpc"
      = .ok { Namespace := "hashicorp", TargetSystem := "aws", Name := "vpc" } :=
  (AddModule.parse_segments "hashicorp" "aws" "vpc" (by decide) (by decide) (by decide)
    (by decide)).1


/-- C2: the provider parse stage sees its input only through the lower-casing, so two inputs
with equal lower-casings either both fail or both succeed with the same identifier; each field
of a parsed identifier equals its own lower-casing, the rune map `unicode.ToLower` leaving
alone every ASCII letter, digit or hyphen that it produces; and when that map is the usual one
on the ASCII letters, `HashiCorp/terraform-provider-AWS` gives `hashicorp` and `aws`. -/
theorem AddProvider.parse_case_invariant (lower : Char → Char)
    (hfix : ∀ c, isAlnumHyphen (lower c) = true → lower (lower c) = lower c) :
    (∀ s s' : String, toLower lower s = toLower lower s' →
      (∃ e e', AddProvider.parseStage lower s = .error e ∧
        AddProvider.parseStage lower s' = .error e') ∨
      (∃ id, AddProvider.parseStage lower s = .ok id ∧
        AddProvider.parseStage lower s' = .ok id)) ∧
    (∀ (s : String) (id : AddProvider.Identifier), AddProvider.parseStage lower s = .ok id →
      toLower lower id.Namespace = id.Namespace ∧
      toLower lower id.ProviderName = id.ProviderName) ∧
    ((∀ c ∈ "HashiCorp/terraform-provider-AWS".data, lower c = asciiLower c) →
      AddProvider.parseStage lower "HashiCorp/terraform-provider-AWS"
        = .ok { Namespace := "hashicorp", ProviderName := "aws" }) := by
  refine ⟨?_, ?_, ?_⟩
  · intro s s' h
    unfold AddProvider.parseStage
    rw [← h]
    cases findStringSubmatch AddProvider.re (toLower lower s) with
    | none => exact Or.inl ⟨_, _, rfl, rfl⟩
    | some m => exact Or.inr ⟨_, rfl, rfl⟩
  · intro s id h
    obtain ⟨pre, ns, n, post, e, hid, -, hns, hn⟩ := AddProvider.provider_parseStage_ok_inv lower s id h
    subst hid
    constructor
    · apply toLower_fixed lower hfix s
      · intro c hc
        rw [e]
        simp [hc]
      · exact fun c hc => isAlnumHyphen_of_isAlnum c (hns c hc)
    · apply toLower_fixed lower hfix s
      · intro c hc
        rw [e]
        simp [hc]
      · exact hn
  · intro h
    unfold AddProvider.parseStage
    rw [toLower_congr lower asciiLower _ h]
    rfl

/-- Witness of C2, with the ASCII lower-casing as the rune map: the two spellings of
`hashicorp/terraform-provider-aws` parse to the same lower-cased identifier. -/
theorem AddProvider.parse_case_invariant_witness :
    (∃ id, AddProvider.parseStage asciiLower "HashiCorp/terraform-provider-AWS" = .ok id ∧
      AddProvider.parseStage asciiLower "hashicorp/terraform-provider-aws" = .ok id) ∧
    AddProvider.parseStage asciiLower "HashiCorp/terraform-provider-AWS"
      = .ok { Namespace := "hashicorp", ProviderName := "aws" } := by
  have h := AddProvider.parse_case_invariant asciiLower (fun c _ => asciiLower_idem c)
  refine ⟨?_, h.2.2 (fun _ _ => rfl)⟩
  rcases h.1 "HashiCorp/terraform-provider-AWS" "hashicorp/terraform-provider-aws" (by decide)
    with ⟨e, e', h1, -⟩ | h2
  · rw [h.2.2 (fun _ _ => rfl)] at h1
    cases h1
  · exact h2


/-- Counterexample to C3: three names that are not of the anchored form and still parse, the
identifier being built from a substring: `my-org/terraform-aws-vpc` gives namespace `org`,
`hashicorp/terraform-aws-vpc/extra` drops `/extra`, and the clone URL parses as the provider
`hashicorp`/`aws`. -/
theorem parse_accepts_unanchored :
    (¬ AddModule.AnchoredForm "my-org/terraform-aws-vpc".data ∧
      AddModule.parseStage "my-org/terraform-aws-vpc"
        = .ok { Namespace := "org", TargetSystem := "aws", Name := "vpc" }) ∧
    (¬ AddModule.AnchoredForm "hashicorp/terraform-aws-vpc/extra".data ∧
      AddModule.parseStage "hashicorp/terraform-aws-vpc/extra"
        = .ok { Namespace := "hashicorp", TargetSystem := "aws", Name := "vpc" }) ∧
    (¬ AddProvider.AnchoredForm
        (toLower asciiLower "https://github.com/hashicorp/terraform-provider-aws.git").data ∧
      AddProvider.parseStage asciiLower "https://github.com/hashicorp/terraform-provider-aws.git"
        = .ok { Namespace := "hashicorp", ProviderName := "aws" }) := by
  refine ⟨⟨?_, rfl⟩, ⟨?_, rfl⟩, ⟨?_, rfl⟩⟩
  · rintro ⟨ns, t, n, e, hns, -, -⟩
    have h := takeWhile_of_run isAlnum ns _ hns
      (stopsAt_cons (c := '/') ("terraform-".data ++ (t ++ ('-' :: n))) (by decide))
    have e' : "my-org/terraform-aws-vpc".data
        = ns ++ '/' :: ("terraform-".data ++ (t ++ ('-' :: n))) := e
    rw [← e'] at h
    have hd : "my-org/terraform-aws-vpc".data.dropWhile isAlnum
        = "-org/terraform-aws-vpc".data := by decide
    rw [hd] at h
    exact absurd h.2 (by simp)
  · rintro ⟨ns, t, n, e, hns, ht, hn⟩
    have h := takeWhile_of_run isAlnum ns _ hns
      (stopsAt_cons (c := '/') ("terraform-".data ++ (t ++ ('-' :: n))) (by decide))
    have e' : "hashicorp/terraform-aws-vpc/extra".data
        = ns ++ '/' :: ("terraform-".data ++ (t ++ ('-' :: n))) := e
    rw [← e'] at h
    have hd : "hashicorp/terraform-aws-vpc/extra".data.dropWhile isAlnum
        = "/terraform-aws-vpc/extra".data := by decide
    rw [hd] at h
    have h2 : "aws-vpc/extra".data = t ++ '-' :: n := by
      have := h.2
      simpa using this
    have h3 := takeWhile_of_run isAlnum t _ ht (stopsAt_cons (c := '-') n (by decide))
    rw [← h2] at h3
    have hd3 : "aws-vpc/extra".data.dropWhile isAlnum = "-vpc/extra".data := by decide
    rw [hd3] at h3
    have h4 : n = "vpc/extra".data := by
      have := h3.2
      simp at this
      exact this.symm
    have := hn '/' (by rw [h4]; decide)
    exact absurd this (by decide)
  · rintro ⟨ns, n, e, hns, -⟩
    have h := takeWhile_of_run isAlnum ns _ hns
      (stopsAt_cons (c := '/') ("terraform-provider-".data ++ n) (by decide))
    have e' : (toLower asciiLower
        "https://github.com/hashicorp/terraform-provider-aws.git").data
        = ns ++ '/' :: ("terraform-provider-".data ++ n) := e
    rw [← e'] at h
    have hd : (toLower asciiLower
        "https://github.com/hashicorp/terraform-provider-aws.git").data.dropWhile isAlnum
        = "://github.com/hashicorp/terraform-provider-aws.git".data := by decide
    rw [hd] at h
    exact absurd h.2 (by simp)

/-- C3, amended: a repository name in which no substring matches (lower-cased first, for a
provider) is rejected with `Invalid repository name: ` followed by the name as given, no
collaborator is called (so `storage.Create` is not) and no output field is set; a name that
contains a match anywhere is accepted, and the parse stage succeeds with an identifier exactly
when that identifier is built from the leftmost match: its segments are those of the match
that starts earliest in the name, the name segment going on as far as its class allows. -/
theorem parse_rejects_without_match :
    (∀ repository : String, ¬ AddModule.ContainsMatch repository.data →
      AddModule.parseStage repository = .error ("Invalid repository name: " ++ repository) ∧
      ∀ (M E σ : Type) (lower : Char → Char) (S : AddModule.Collaborators M E σ) (w : σ),
        AddModule.pipeline lower S repository w
          = ⟨some ("Invalid repository name: " ++ repository), {}, [], w⟩) ∧
    (∀ repository : String, AddModule.ContainsMatch repository.data →
      ∃ id, AddModule.parseStage repository = .ok id) ∧
    (∀ (repository : String) (id : AddModule.Identifier),
      AddModule.parseStage repository = .ok id ↔
        AddModule.LeftmostMatch repository.data id) ∧
    (∀ (lower : Char → Char) (repository : String),
      ¬ AddProvider.ContainsMatch (toLower lower repository).data →
      AddProvider.parseStage lower repository
        = .error ("Invalid repository name: " ++ repository) ∧
      ∀ (M E σ : Type) (S : AddProvider.Collaborators M E σ) (w : σ),
        AddProvider.pipeline lower S repository w
          = ⟨some ("Invalid repository name: " ++ repository), {}, [], w⟩) ∧
    (∀ (lower : Char → Char) (repository : String),
      AddProvider.ContainsMatch (toLower lower repository).data →
      ∃ id, AddProvider.parseStage lower repository = .ok id) ∧
    (∀ (lower : Char → Char) (repository : String) (id : AddProvider.Identifier),
      AddProvider.parseStage lower repository = .ok id ↔
        AddProvider.LeftmostMatch (toLower lower repository).data id) := by
  refine ⟨?_, ?_, AddModule.module_parse_leftmost, ?_, ?_,
    AddProvider.provider_parse_leftmost⟩
  · intro repository hno
    have hp : AddModule.parseStage repository
        = .error ("Invalid repository name: " ++ repository) := by
      cases hp : AddModule.parseStage repository with
      | error e => rw [(AddModule.module_parseStage_error_inv repository e hp).1]
      | ok id =>
        obtain ⟨pre, ns, t, n, post, e, -, h0, hns, ht, hn⟩ :=
          AddModule.module_parseStage_ok_inv repository id hp
        exact absurd ⟨pre, ns, t, n, post, e, h0, hns, ht, hn⟩ hno
    exact ⟨hp, fun M E σ lower S w => AddModule.module_pipeline_of_parse_error lower S _ w _ hp⟩
  · intro repository hc
    cases hp : AddModule.parseStage repository with
    | error e => exact absurd hc (AddModule.module_parseStage_error_inv repository e hp).2
    | ok id => exact ⟨id, rfl⟩
  · intro lower repository hno
    have hp : AddProvider.parseStage lower repository
        = .error ("Invalid repository name: " ++ repository) := by
      cases hp : AddProvider.parseStage lower repository with
      | error e => rw [(AddProvider.provider_parseStage_error_inv lower repository e hp).1]
      | ok id =>
        obtain ⟨pre, ns, n, post, e, -, h0, hns, hn⟩ :=
          AddProvider.provider_parseStage_ok_inv lower repository id hp
        exact absurd ⟨pre, ns, n, post, e, h0, hns, hn⟩ hno
    exact ⟨hp, fun M E σ S w => AddProvider.provider_pipeline_of_parse_error lower S _ w _ hp⟩
  · intro lower repository hc
    cases hp : AddProvider.parseStage lower repository with
    | error e => exact absurd hc (AddProvider.provider_parseStage_error_inv lower repository e hp).2
    | ok id => exact ⟨id, rfl⟩

/-- Witness of the amended C3: `hashicorp/vpc` holds no match and is rejected, and the
identifier parsed from `my-org/terraform-aws-vpc` comes from the leftmost match. -/
theorem parse_rejects_without_match_witness :
    AddModule.parseStage "hashicorp/vpc" = .error "Invalid repository name: hashicorp/vpc" ∧
    (AddModule.pipeline asciiLower (AddModule.fake {}) "hashicorp/vpc" []).calls = [] ∧
    AddModule.LeftmostMatch "my-org/terraform-aws-vpc".data
      { Namespace := "org", TargetSystem := "aws", Name := "vpc" } := by
  have hno : ¬ AddModule.ContainsMatch "hashicorp/vpc".data := by
    intro hc
    obtain ⟨id, hid⟩ := parse_rejects_without_match.2.1 "hashicorp/vpc" hc
    have : AddModule.parseStage "hashicorp/vpc"
        = .error "Invalid repository name: hashicorp/vpc" := rfl
    rw [this] at hid
    cases hid
  have h := parse_rejects_without_match.1 "hashicorp/vpc" hno
  exact ⟨h.1, by rw [h.2], (parse_rejects_without_match.2.2.1 "my-org/terraform-aws-vpc"
    { Namespace := "org", TargetSystem := "aws", Name := "vpc" }).1 rfl⟩

/-- Counterexample to C9: `a/terraform--` parses to a module identifier with an empty target
and an empty name, `a/terraform-provider-` to a provider identifier with an empty name. -/
theorem parse_allows_empty_fields :
    AddModule.parseStage "a/terraform--"
      = .ok { Namespace := "a", TargetSystem := "", Name := "" } ∧
    AddProvider.parseStage asciiLower "a/terraform-provider-"
      = .ok { Namespace := "a", ProviderName := "" } :=
  ⟨rfl, rfl⟩

/-- C9, amended: on every input on which the parse stage succeeds, the identifier handed to
`storage.Create` has a non-empty `Namespace` of ASCII letters and digits, a `TargetSystem`
(module) of ASCII letters and digits and a `Name` / `ProviderName` of ASCII letters, digits and
hyphens; the target and the name may be empty. -/
theorem parsed_fields_in_class :
    (∀ (repository : String) (id : AddModule.Identifier),
      AddModule.parseStage repository = .ok id →
        id.Namespace ≠ "" ∧ (∀ c ∈ id.Namespace.data, isAlnum c = true) ∧
        (∀ c ∈ id.TargetSystem.data, isAlnum c = true) ∧
        (∀ c ∈ id.Name.data, isAlnumHyphen c = true)) ∧
    (∀ (M E σ : Type) (lower : Char → Char) (S : AddModule.Collaborators M E σ)
      (repository : String) (w : σ) (id : AddModule.Identifier),
      AddModule.Call.create id ∈ (AddModule.pipeline lower S repository w).calls →
        AddModule.parseStage repository = .ok id) ∧
    (∀ (lower : Char → Char) (repository : String) (id : AddProvider.Identifier),
      AddProvider.parseStage lower repository = .ok id →
        id.Namespace ≠ "" ∧ (∀ c ∈ id.Namespace.data, isAlnum c = true) ∧
        (∀ c ∈ id.ProviderName.data, isAlnumHyphen c = true)) ∧
    (∀ (M E σ : Type) (lower : Char → Char) (S : AddProvider.Collaborators M E σ)
      (repository : String) (w : σ) (id : AddProvider.Identifier),
      AddProvider.Call.create id ∈ (AddProvider.pipeline lower S repository w).calls →
        AddProvider.parseStage lower repository = .ok id) := by
  refine ⟨?_, ?_, ?_, ?_⟩
  · intro repository id h
    obtain ⟨pre, ns, t, n, post, -, hid, h0, hns, ht, hn⟩ :=
      AddModule.module_parseStage_ok_inv repository id h
    subst hid
    refine ⟨?_, hns, ht, hn⟩
    intro he
    apply h0
    have := congrArg String.data he
    simpa using this
  · intro M E σ lower S repository w id h
    exact AddModule.module_parse_ok_of_create lower S repository w id h
  · intro lower repository id h
    obtain ⟨pre, ns, n, post, -, hid, h0, hns, hn⟩ :=
      AddProvider.provider_parseStage_ok_inv lower repository id h
    subst hid
    refine ⟨?_, hns, hn⟩
    intro he
    apply h0
    have := congrArg String.data he
    simpa using this
  · intro M E σ lower S repository w id h
    exact AddProvider.provider_parse_ok_of_create lower S repository w id h

/-- Witness of the amended C9: the fields parsed from `hashicorp/terraform-aws-vpc`. -/
theorem parsed_fields_in_class_witness :
    ("hashicorp" : String) ≠ "" ∧ (∀ c ∈ "hashicorp".data, isAlnum c = true) ∧
      (∀ c ∈ "aws".data, isAlnum c = true) ∧ (∀ c ∈ "vpc".data, isAlnumHyphen c = true) :=
  parsed_fields_in_class.1 "hashicorp/terraform-aws-vpc"
    { Namespace := "hashicorp", TargetSystem := "aws", Name := "vpc" } rfl


/-! ## The stages after parsing -/

theorem find?_first {α : Type} (f : α → Bool) (pre : List α) (p : α) (post : List α)
    (hpre : ∀ q ∈ pre, f q = false) (hp : f p = true) :
    (pre ++ p :: post).find? f = some p := by
  induction pre with
  | nil => simp [List.find?, hp]
  | cons x pre ih =>
    have hx : f x = false := hpre x (List.mem_cons_self _ _)
    simp only [List.cons_append, List.find?, hx]
    exact ih (fun q hq => hpre q (List.mem_cons_of_mem _ hq))

theorem find?_none_of_forall {α : Type} (f : α → Bool) (l : List α)
    (h : ∀ q ∈ l, f q = false) : l.find? f = none := by
  induction l with
  | nil => rfl
  | cons x l ih =>
    have hx : f x = false := h x (List.mem_cons_self _ _)
    simp only [List.find?, hx]
    exact ih (fun q hq => h q (List.mem_cons_of_mem _ hq))

/-- Duplicate detection in both commands: in a run in which parsing, address validation and
`storage.List` succeed, when the first listed entry whose lower-cased address equals the
lower-cased submitted address is `p`, the pipeline fails with `Repository already exists in
the registry, ` followed by the address of `p` as stored, and `storage.Save` is not called;
when no listed entry matches, the run goes on to the metadata fetch. -/
theorem duplicate_rejected :
    (∀ (M E σ : Type) (lower : Char → Char) (S : AddModule.Collaborators M E σ)
      (repository : String) (w w1 : σ) (id : AddModule.Identifier),
      AddModule.parseStage repository = .ok id →
      S.parseModuleSource (S.string (S.create id)) = none →
      ((∀ (pre : List E) (p : E) (post : List E),
        S.list w = (.ok (pre ++ p :: post), w1) →
        (∀ q ∈ pre, toLower lower (S.entryString q)
          ≠ toLower lower (S.string (S.create id))) →
        toLower lower (S.entryString p) = toLower lower (S.string (S.create id)) →
        (AddModule.pipeline lower S repository w).err
          = some ("Repository already exists in the registry, " ++ S.entryString p) ∧
        ∀ m, AddModule.Call.save m ∉ (AddModule.pipeline lower S repository w).calls) ∧
      (∀ entries : List E,
        S.list w = (.ok entries, w1) →
        (∀ q ∈ entries, toLower lower (S.entryString q)
          ≠ toLower lower (S.string (S.create id))) →
        AddModule.Call.updateMetadata ∈ (AddModule.pipeline lower S repository w).calls))) ∧
    (∀ (M E σ : Type) (lower : Char → Char) (S : AddProvider.Collaborators M E σ)
      (repository : String) (w w1 : σ) (id : AddProvider.Identifier),
      AddProvider.parseStage lower repository = .ok id →
      S.parseProviderSource (S.string (S.create id)) = none →
      ((∀ (pre : List E) (p : E) (post : List E),
        S.list w = (.ok (pre ++ p :: post), w1) →
        (∀ q ∈ pre, toLower lower (S.entryString q)
          ≠ toLower lower (S.string (S.create id))) →
        toLower lower (S.entryString p) = toLower lower (S.string (S.create id)) →
        (AddProvider.pipeline lower S repository w).err
          = some ("Repository already exists in the registry, " ++ S.entryString p) ∧
        ∀ m, AddProvider.Call.save m ∉ (AddProvider.pipeline lower S repository w).calls) ∧
      (∀ entries : List E,
        S.list w = (.ok entries, w1) →
        (∀ q ∈ entries, toLower lower (S.entryString q)
          ≠ toLower lower (S.string (S.create id))) →
        AddProvider.Call.updateMetadata
          ∈ (AddProvider.pipeline lower S repository w).calls))) := by
  constructor
  · intro M E σ lower S repository w w1 id hp ha
    constructor
    · intro pre p post hl hpre hdup
      have hf := find?_first (fun q => toLower lower (S.entryString q)
          == toLower lower (S.string (S.create id))) pre p post
        (fun q hq => by simpa using hpre q hq) (by simpa using hdup)
      simp [AddModule.pipeline, hp, ha, hl, hf]
    · intro entries hl hno
      have hf := find?_none_of_forall (fun q => toLower lower (S.entryString q)
          == toLower lower (S.string (S.create id))) entries
        (fun q hq => by simpa using hno q hq)
      simp only [AddModule.pipeline, hp, ha, hl, hf]
      repeat' split
      all_goals simp
  · intro M E σ lower S repository w w1 id hp ha
    constructor
    · intro pre p post hl hpre hdup
      have hf := find?_first (fun q => toLower lower (S.entryString q)
          == toLower lower (S.string (S.create id))) pre p post
        (fun q hq => by simpa using hpre q hq) (by simpa using hdup)
      simp [AddProvider.pipeline, hp, ha, hl, hf]
    · intro entries hl hno
      have hf := find?_none_of_forall (fun q => toLower lower (S.entryString q)
          == toLower lower (S.string (S.create id))) entries
        (fun q hq => by simpa using hno q hq)
      simp only [AddProvider.pipeline, hp, ha, hl, hf]
      repeat' split
      all_goals simp

/-- Example of the duplicate detection: `HashiCorp/terraform-aws-VPC` submitted to a catalog
that lists `other/x/y` and then `hashicorp/vpc/aws`. -/
theorem duplicate_rejected_witness :
    (AddModule.pipeline asciiLower (AddModule.fake {}) "HashiCorp/terraform-aws-VPC"
        ["other/x/y", "hashicorp/vpc/aws"]).err
      = some "Repository already exists in the registry, hashicorp/vpc/aws" ∧
    ∀ m, AddModule.Call.save m ∉ (AddModule.pipeline asciiLower (AddModule.fake {})
      "HashiCorp/terraform-aws-VPC" ["other/x/y", "hashicorp/vpc/aws"]).calls :=
  (duplicate_rejected.1 _ _ _ asciiLower (AddModule.fake {}) "HashiCorp/terraform-aws-VPC"
    ["other/x/y", "hashicorp/vpc/aws"] ["other/x/y", "hashicorp/vpc/aws"]
    { Namespace := "HashiCorp", TargetSystem := "aws", Name := "VPC" } rfl rfl).1
    ["other/x/y"] "hashicorp/vpc/aws" [] rfl (by decide) (by decide)


theorem unexpected_ne_duplicate (x y : String) :
    "An unexpected error occured: " ++ x ≠ "Repository already exists in the registry, " ++ y := by
  intro h
  have h1 := congrArg (fun s : String => s.data.head?) h
  simp only [String.data_append] at h1
  simp at h1

theorem no_versions_ne_duplicate (x y : String) :
    "No versions detected for repository " ++ x
      ≠ "Repository already exists in the registry, " ++ y := by
  intro h
  have h1 := congrArg (fun s : String => s.data.head?) h
  simp only [String.data_append] at h1
  simp at h1

/-- Without a matching entry, add-provider never reports the duplicate message: every error of
its later stages is wrapped or is the message of the version gate. -/
theorem AddProvider.no_duplicate_message {M E σ : Type} (lower : Char → Char)
    (S : AddProvider.Collaborators M E σ) (repository : String) (w w1 : σ)
    (id : AddProvider.Identifier) (entries : List E)
    (hp : AddProvider.parseStage lower repository = .ok id)
    (ha : S.parseProviderSource (S.string (S.create id)) = none)
    (hl : S.list w = (.ok entries, w1))
    (hno : ∀ q ∈ entries, toLower lower (S.entryString q)
      ≠ toLower lower (S.string (S.create id))) (a : String) :
    (AddProvider.pipeline lower S repository w).err
      ≠ some ("Repository already exists in the registry, " ++ a) := by
  have hf := find?_none_of_forall (fun q => toLower lower (S.entryString q)
      == toLower lower (S.string (S.create id))) entries
    (fun q hq => by simpa using hno q hq)
  simp only [AddProvider.pipeline, hp, ha, hl, hf]
  repeat' split
  all_goals simp only [ne_eq, Option.some.injEq, not_false_eq_true, reduceCtorEq]
  · exact unexpected_ne_duplicate _ _
  · exact no_versions_ne_duplicate _ _
  · exact unexpected_ne_duplicate _ _

/-- C4 at the failing input: add-module is given `hashicorp/terraform-aws-vpc`, the catalog
lists only `other/x/y` (no entry matches, in any case), and `storage.Save` fails with an error
whose text is `Repository already exists in the registry, hashicorp/vpc/aws`; the run gets as
far as `storage.Save` and then fails with exactly that text as its message; add-provider, which
wraps the error of `storage.Save`, reports a different message in the same situation. -/
theorem save_error_read_as_duplicate :
    (∀ q ∈ ["other/x/y"],
      toLower asciiLower q ≠ toLower asciiLower "hashicorp/vpc/aws") ∧
    (AddModule.pipeline asciiLower
        (AddModule.fake
          { saveErr := some "Repository already exists in the registry, hashicorp/vpc/aws" })
        "hashicorp/terraform-aws-vpc" ["other/x/y"]).calls.map AddModule.Call.kind
      = [.create, .parseSource, .list, .updateMetadata, .save] ∧
    (AddModule.pipeline asciiLower
        (AddModule.fake
          { saveErr := some "Repository already exists in the registry, hashicorp/vpc/aws" })
        "hashicorp/terraform-aws-vpc" ["other/x/y"]).err
      = some "Repository already exists in the registry, hashicorp/vpc/aws" ∧
    (AddModule.reported (AddModule.pipeline asciiLower
        (AddModule.fake
          { saveErr := some "Repository already exists in the registry, hashicorp/vpc/aws" })
        "hashicorp/terraform-aws-vpc" ["other/x/y"])).Validation
      = "Repository already exists in the registry, hashicorp/vpc/aws" ∧
    (AddProvider.pipeline asciiLower
        (AddProvider.fake
          { saveErr := some "Repository already exists in the registry, hashicorp/aws" })
        "hashicorp/terraform-provider-aws" ["other/x"]).err
      = some ("An unexpected error occured: "
          ++ "Repository already exists in the registry, hashicorp/aws") :=
  ⟨by decide, rfl, rfl, rfl, rfl⟩

/-- C5: in a run (module or provider) that passes parsing, address validation and the
duplicate check and whose metadata fetch returns no error and leaves zero versions, the
pipeline fails with `No versions detected for repository ` followed by the repository URL and
`storage.Save` is not called; and in every run, a submission that `storage.Save` receives has
at least one version. -/
theorem version_gate :
    (∀ (M E σ : Type) (lower : Char → Char) (S : AddModule.Collaborators M E σ)
      (repository : String) (w w1 w2 : σ) (id : AddModule.Identifier) (entries : List E)
      (sub : M),
      AddModule.parseStage repository = .ok id →
      S.parseModuleSource (S.string (S.create id)) = none →
      S.list w = (.ok entries, w1) →
      (∀ q ∈ entries, toLower lower (S.entryString q)
        ≠ toLower lower (S.string (S.create id))) →
      S.updateMetadata (S.create id) w1 = ((none, sub), w2) →
      S.versions sub = 0 →
      (AddModule.pipeline lower S repository w).err
        = some ("No versions detected for repository " ++ S.repositoryURL sub) ∧
      ∀ m, AddModule.Call.save m ∉ (AddModule.pipeline lower S repository w).calls) ∧
    (∀ (M E σ : Type) (lower : Char → Char) (S : AddModule.Collaborators M E σ)
      (repository : String) (w : σ) (m : M),
      AddModule.Call.save m ∈ (AddModule.pipeline lower S repository w).calls →
      0 < S.versions m) ∧
    (∀ (M E σ : Type) (lower : Char → Char) (S : AddProvider.Collaborators M E σ)
      (repository : String) (w w1 w2 : σ) (id : AddProvider.Identifier) (entries : List E)
      (sub : M),
      AddProvider.parseStage lower repository = .ok id →
      S.parseProviderSource (S.string (S.create id)) = none →
      S.list w = (.ok entries, w1) →
      (∀ q ∈ entries, toLower lower (S.entryString q)
        ≠ toLower lower (S.string (S.create id))) →
      S.updateMetadata (S.create id) w1 = ((none, sub), w2) →
      S.versions sub = 0 →
      (AddProvider.pipeline lower S repository w).err
        = some ("No versions detected for repository " ++ S.repositoryURL sub) ∧
      ∀ m, AddProvider.Call.save m ∉ (AddProvider.pipeline lower S repository w).calls) ∧
    (∀ (M E σ : Type) (lower : Char → Char) (S : AddProvider.Collaborators M E σ)
      (repository : String) (w : σ) (m : M),
      AddProvider.Call.save m ∈ (AddProvider.pipeline lower S repository w).calls →
      0 < S.versions m) := by
  refine ⟨?_, ?_, ?_, ?_⟩
  · intro M E σ lower S repository w w1 w2 id entries sub hp ha hl hno hu hv
    have hf := find?_none_of_forall (fun q => toLower lower (S.entryString q)
        == toLower lower (S.string (S.create id))) entries
      (fun q hq => by simpa using hno q hq)
    simp [AddModule.pipeline, hp, ha, hl, hf, hu, hv]
  · intro M E σ lower S repository w m
    simp only [AddModule.pipeline]
    repeat' split
    all_goals simp
    all_goals
      intro h
      subst h
      omega
  · intro M E σ lower S repository w w1 w2 id entries sub hp ha hl hno hu hv
    have hf := find?_none_of_forall (fun q => toLower lower (S.entryString q)
        == toLower lower (S.string (S.create id))) entries
      (fun q hq => by simpa using hno q hq)
    simp [AddProvider.pipeline, hp, ha, hl, hf, hu, hv]
  · intro M E σ lower S repository w m
    simp only [AddProvider.pipeline]
    repeat' split
    all_goals simp
    all_goals
      intro h
      subst h
      omega

/-- Witness of C5: a repository without releases submitted to an empty catalog. -/
theorem version_gate_witness :
    (AddModule.pipeline asciiLower (AddModule.fake { remoteVersions := 0 })
        "hashicorp/terraform-aws-vpc" []).err
      = some "No versions detected for repository https://github.com/hashicorp/terraform-aws-vpc"
    ∧ ∀ m, AddModule.Call.save m ∉ (AddModule.pipeline asciiLower
        (AddModule.fake { remoteVersions := 0 }) "hashicorp/terraform-aws-vpc" []).calls :=
  version_gate.1 _ _ _ asciiLower (AddModule.fake { remoteVersions := 0 })
    "hashicorp/terraform-aws-vpc" [] [] []
    { Namespace := "hashicorp", TargetSystem := "aws", Name := "vpc" } []
    ({ Namespace := "hashicorp", TargetSystem := "aws", Name := "vpc" }, 0)
    rfl rfl rfl (by simp) rfl rfl

/-- C6: in a run in which all seven stages succeed, the reported output has `File` equal to
`storage.Path` of the submitted identifier, `Namespace`, `Name` (and `Target`) equal to the
fields of the submitted identifier and an empty `Validation`; the submitted identifier being
the parsed one when the record that reaches `storage.Save` still embeds the identifier it was
created from. -/
theorem success_output :
    (∀ (M E σ : Type) (lower : Char → Char) (S : AddModule.Collaborators M E σ)
      (repository : String) (w w1 w2 w3 : σ) (id : AddModule.Identifier) (entries : List E)
      (sub : M),
      AddModule.parseStage repository = .ok id →
      S.parseModuleSource (S.string (S.create id)) = none →
      S.list w = (.ok entries, w1) →
      (∀ q ∈ entries, toLower lower (S.entryString q)
        ≠ toLower lower (S.string (S.create id))) →
      S.updateMetadata (S.create id) w1 = ((none, sub), w2) →
      S.versions sub ≠ 0 →
      S.save sub w2 = (none, w3) →
      AddModule.reported (AddModule.pipeline lower S repository w)
        = { File := S.path (S.identifier sub)
            Namespace := (S.identifier sub).Namespace
            Name := (S.identifier sub).Name
            Target := (S.identifier sub).TargetSystem
            Validation := "" } ∧
      (S.identifier sub = id →
        AddModule.reported (AddModule.pipeline lower S repository w)
          = { File := S.path id, Namespace := id.Namespace, Name := id.Name,
              Target := id.TargetSystem, Validation := "" })) ∧
    (∀ (M E σ : Type) (lower : Char → Char) (S : AddProvider.Collaborators M E σ)
      (repository : String) (w w1 w2 w3 : σ) (id : AddProvider.Identifier) (entries : List E)
      (sub : M),
      AddProvider.parseStage lower repository = .ok id →
      S.parseProviderSource (S.string (S.create id)) = none →
      S.list w = (.ok entries, w1) →
      (∀ q ∈ entries, toLower lower (S.entryString q)
        ≠ toLower lower (S.string (S.create id))) →
      S.updateMetadata (S.create id) w1 = ((none, sub), w2) →
      S.versions sub ≠ 0 →
      S.save sub w2 = (none, w3) →
      AddProvider.reported (AddProvider.pipeline lower S repository w)
        = { File := S.path (S.identifier sub)
            Namespace := (S.identifier sub).Namespace
            Name := (S.identifier sub).ProviderName
            Validation := "" } ∧
      (S.identifier sub = id →
        AddProvider.reported (AddProvider.pipeline lower S repository w)
          = { File := S.path id, Namespace := id.Namespace, Name := id.ProviderName,
              Validation := "" })) := by
  constructor
  · intro M E σ lower S repository w w1 w2 w3 id entries sub hp ha hl hno hu hv hs
    have hf := find?_none_of_forall (fun q => toLower lower (S.entryString q)
        == toLower lower (S.string (S.create id))) entries
      (fun q hq => by simpa using hno q hq)
    have h : AddModule.reported (AddModule.pipeline lower S repository w)
        = { File := S.path (S.identifier sub)
            Namespace := (S.identifier sub).Namespace
            Name := (S.identifier sub).Name
            Target := (S.identifier sub).TargetSystem
            Validation := "" } := by
      simp [AddModule.reported, AddModule.pipeline, hp, ha, hl, hf, hu, hv, hs]
    exact ⟨h, fun hid => by rw [h, hid]⟩
  · intro M E σ lower S repository w w1 w2 w3 id entries sub hp ha hl hno hu hv hs
    have hf := find?_none_of_forall (fun q => toLower lower (S.entryString q)
        == toLower lower (S.string (S.create id))) entries
      (fun q hq => by simpa using hno q hq)
    have h : AddProvider.reported (AddProvider.pipeline lower S repository w)
        = { File := S.path (S.identifier sub)
            Namespace := (S.identifier sub).Namespace
            Name := (S.identifier sub).ProviderName
            Validation := "" } := by
      simp [AddProvider.reported, AddProvider.pipeline, hp, ha, hl, hf, hu, hv, hs]
    exact ⟨h, fun hid => by rw [h, hid]⟩

/-- Witness of C6: `hashicorp/terraform-aws-vpc` with one release, admitted to a catalog that
holds another module. -/
theorem success_output_witness :
    AddModule.reported (AddModule.pipeline asciiLower (AddModule.fake {})
        "hashicorp/terraform-aws-vpc" ["other/x/y"])
      = { File := "modules/hashicorp/vpc/aws.json", Namespace := "hashicorp", Name := "vpc",
          Target := "aws", Validation := "" } :=
  (success_output.1 _ _ _ asciiLower (AddModule.fake {}) "hashicorp/terraform-aws-vpc"
    ["other/x/y"] ["other/x/y"] ["other/x/y"] ["other/x/y", "hashicorp/vpc/aws"]
    { Namespace := "hashicorp", TargetSystem := "aws", Name := "vpc" } ["other/x/y"]
    ({ Namespace := "hashicorp", TargetSystem := "aws", Name := "vpc" }, 1)
    rfl rfl rfl (by decide) rfl (by decide) rfl).2 rfl


theorem append_ne_empty (a b : String) (h : a ≠ "") : a ++ b ≠ "" := by
  intro he
  apply h
  have := congrArg String.data he
  simp only [String.data_append] at this
  have ha : a.data = [] := (List.append_eq_nil.1 this).1
  cases a
  simp_all

theorem AddModule.module_err_ne_empty {M E σ : Type} (lower : Char → Char)
    (S : AddModule.Collaborators M E σ) (repository : String) (w : σ)
    (haddr : ∀ a e, S.parseModuleSource a = some e → e ≠ "")
    (hlist : ∀ w e w', S.list w = (.error e, w') → e ≠ "") :
    ∀ e, (AddModule.pipeline lower S repository w).err = some e →
      (∀ m, AddModule.Call.save m ∉ (AddModule.pipeline lower S repository w).calls) →
      e ≠ "" := by
  intro e
  cases hp : AddModule.parseStage repository with
  | error e' =>
    rw [AddModule.module_pipeline_of_parse_error lower S repository w e' hp]
    intro h _
    have he : e' = e := Option.some.inj h
    rw [← he, (AddModule.module_parseStage_error_inv repository e' hp).1]
    exact append_ne_empty _ _ (by decide)
  | ok id =>
    simp only [AddModule.pipeline, hp]
    split
    · rename_i e1 h1
      intro h _
      cases h
      exact haddr _ _ h1
    · split
      · rename_i e1 w1 h1
        intro h _
        cases h
        exact hlist _ _ _ h1
      · split
        · intro h _
          cases h
          exact append_ne_empty _ _ (by decide)
        · split
          · intro h _
            cases h
            exact append_ne_empty _ _ (by decide)
          · split
            · intro h _
              cases h
              exact append_ne_empty _ _ (by decide)
            · split
              · intro _ hno
                simp at hno
              · intro h
                cases h

theorem AddProvider.provider_err_ne_empty {M E σ : Type} (lower : Char → Char)
    (S : AddProvider.Collaborators M E σ) (repository : String) (w : σ)
    (haddr : ∀ a e, S.parseProviderSource a = some e → e ≠ "")
    (hlist : ∀ w e w', S.list w = (.error e, w') → e ≠ "") :
    ∀ e, (AddProvider.pipeline lower S repository w).err = some e → e ≠ "" := by
  intro e
  cases hp : AddProvider.parseStage lower repository with
  | error e' =>
    rw [AddProvider.provider_pipeline_of_parse_error lower S repository w e' hp]
    intro h
    have he : e' = e := Option.some.inj h
    rw [← he, (AddProvider.provider_parseStage_error_inv lower repository e' hp).1]
    exact append_ne_empty _ _ (by decide)
  | ok id =>
    simp only [AddProvider.pipeline, hp]
    split
    · rename_i e1 h1
      intro h
      cases h
      exact haddr _ _ h1
    · split
      · rename_i e1 w1 h1
        intro h
        cases h
        exact hlist _ _ _ h1
      · split
        · intro h
          cases h
          exact append_ne_empty _ _ (by decide)
        · split
          · intro h
            cases h
            exact append_ne_empty _ _ (by decide)
          · split
            · intro h
              cases h
              exact append_ne_empty _ _ (by decide)
            · split
              · intro h
                cases h
                exact append_ne_empty _ _ (by decide)
              · intro h
                cases h

theorem AddModule.module_output_of_err {M E σ : Type} (lower : Char → Char)
    (S : AddModule.Collaborators M E σ) (repository : String) (w : σ) (e : String)
    (h : (AddModule.pipeline lower S repository w).err = some e) :
    (AddModule.pipeline lower S repository w).output = {} := by
  revert h
  simp only [AddModule.pipeline]
  repeat' split
  all_goals simp

theorem AddProvider.provider_output_of_err {M E σ : Type} (lower : Char → Char)
    (S : AddProvider.Collaborators M E σ) (repository : String) (w : σ) (e : String)
    (h : (AddProvider.pipeline lower S repository w).err = some e) :
    (AddProvider.pipeline lower S repository w).output = {} := by
  revert h
  simp only [AddProvider.pipeline]
  repeat' split
  all_goals simp

/-- Counterexample to C7: when `storage.List` fails with an error whose message is empty, the
pipeline fails (the process exits with code 1) and the reported `Validation` is nonetheless the
empty string. -/
theorem empty_validation_on_failure :
    (AddModule.pipeline asciiLower (AddModule.fake { listErr := some "" })
        "hashicorp/terraform-aws-vpc" []).err = some "" ∧
    (AddModule.reported (AddModule.pipeline asciiLower (AddModule.fake { listErr := some "" })
        "hashicorp/terraform-aws-vpc" [])).Validation = "" ∧
    (AddModule.main asciiLower (AddModule.fakeEnv { listErr := some "" })
        { repository := "hashicorp/terraform-aws-vpc", output := "out.json" } []).events.getLast?
      = some (AddModule.Event.exit 1) :=
  ⟨rfl, rfl, rfl⟩

/-- C7, amended: when the pipeline succeeds the reported `Validation` is empty; when it fails
with the error `e`, `Validation` is `e` and `File`, `Namespace`, `Name` and `Target` are all
empty; the error of a failing stage is that stage's message: `Invalid repository name: ` and
the name for the parse, the checker's error for the address validation, the error of
`storage.List`, the duplicate message naming the first matching entry, the error of the
metadata fetch after `An unexpected error occured: `, the `No versions detected` message, and
for add-provider the error of `storage.Save` after `An unexpected error occured: ` (for
add-module a failing `storage.Save` fails the run, its message is left open); and `Validation`
is empty if and only if the pipeline succeeded, provided the errors of the address validation
and of `storage.List` have non-empty messages and, for add-module, the run does not fail at
`storage.Save`. -/
theorem validation_reports_error :
    (∀ (M E σ : Type) (lower : Char → Char) (S : AddModule.Collaborators M E σ)
      (repository : String) (w : σ) (r : AddModule.Result M σ),
      r = AddModule.pipeline lower S repository w →
      (r.err = none → (AddModule.reported r).Validation = "") ∧
      (∀ e, r.err = some e →
        AddModule.reported r
          = { File := "", Namespace := "", Name := "", Target := "", Validation := e }) ∧
      (∀ e, AddModule.parseStage repository = .error e →
        r.err = some ("Invalid repository name: " ++ repository)) ∧
      (∀ id, AddModule.parseStage repository = .ok id →
        (∀ e, S.parseModuleSource (S.string (S.create id)) = some e → r.err = some e) ∧
        (S.parseModuleSource (S.string (S.create id)) = none →
          (∀ e w1, S.list w = (.error e, w1) → r.err = some e) ∧
          (∀ entries w1, S.list w = (.ok entries, w1) →
            (∀ (pre : List E) (p : E) (post : List E), entries = pre ++ p :: post →
              (∀ q ∈ pre, toLower lower (S.entryString q)
                ≠ toLower lower (S.string (S.create id))) →
              toLower lower (S.entryString p) = toLower lower (S.string (S.create id)) →
              r.err = some ("Repository already exists in the registry, "
                ++ S.entryString p)) ∧
            ((∀ q ∈ entries, toLower lower (S.entryString q)
                ≠ toLower lower (S.string (S.create id))) →
              (∀ e sub w2, S.updateMetadata (S.create id) w1 = ((some e, sub), w2) →
                r.err = some ("An unexpected error occured: " ++ e)) ∧
              (∀ sub w2, S.updateMetadata (S.create id) w1 = ((none, sub), w2) →
                (S.versions sub = 0 →
                  r.err = some ("No versions detected for repository "
                    ++ S.repositoryURL sub)) ∧
                (S.versions sub ≠ 0 →
                  (∀ e w3, S.save sub w2 = (some e, w3) → r.err ≠ none) ∧
                  (∀ w3, S.save sub w2 = (none, w3) → r.err = none))))))) ∧
      ((∀ a e, S.parseModuleSource a = some e → e ≠ "") →
        (∀ w e w', S.list w = (.error e, w') → e ≠ "") →
        (r.err ≠ none → ∀ m, AddModule.Call.save m ∉ r.calls) →
        ((AddModule.reported r).Validation = "" ↔ r.err = none))) ∧
    (∀ (M E σ : Type) (lower : Char → Char) (S : AddProvider.Collaborators M E σ)
      (repository : String) (w : σ) (r : AddProvider.Result M σ),
      r = AddProvider.pipeline lower S repository w →
      (r.err = none → (AddProvider.reported r).Validation = "") ∧
      (∀ e, r.err = some e →
        AddProvider.reported r
          = { File := "", Namespace := "", Name := "", Validation := e }) ∧
      (∀ e, AddProvider.parseStage lower repository = .error e →
        r.err = some ("Invalid repository name: " ++ repository)) ∧
      (∀ id, AddProvider.parseStage lower repository = .ok id →
        (∀ e, S.parseProviderSource (S.string (S.create id)) = some e → r.err = some e) ∧
        (S.parseProviderSource (S.string (S.create id)) = none →
          (∀ e w1, S.list w = (.error e, w1) → r.err = some e) ∧
          (∀ entries w1, S.list w = (.ok entries, w1) →
            (∀ (pre : List E) (p : E) (post : List E), entries = pre ++ p :: post →
              (∀ q ∈ pre, toLower lower (S.entryString q)
                ≠ toLower lower (S.string (S.create id))) →
              toLower lower (S.entryString p) = toLower lower (S.string (S.create id)) →
              r.err = some ("Repository already exists in the registry, "
                ++ S.entryString p)) ∧
            ((∀ q ∈ entries, toLower lower (S.entryString q)
                ≠ toLower lower (S.string (S.create id))) →
              (∀ e sub w2, S.updateMetadata (S.create id) w1 = ((some e, sub), w2) →
                r.err = some ("An unexpected error occured: " ++ e)) ∧
              (∀ sub w2, S.updateMetadata (S.create id) w1 = ((none, sub), w2) →
                (S.versions sub = 0 →
                  r.err = some ("No versions detected for repository "
                    ++ S.repositoryURL sub)) ∧
                (S.versions sub ≠ 0 →
                  (∀ e w3, S.save sub w2 = (some e, w3) →
                    r.err = some ("An unexpected error occured: " ++ e)) ∧
                  (∀ w3, S.save sub w2 = (none, w3) → r.err = none))))))) ∧
      ((∀ a e, S.parseProviderSource a = some e → e ≠ "") →
        (∀ w e w', S.list w = (.error e, w') → e ≠ "") →
        ((AddProvider.reported r).Validation = "" ↔ r.err = none))) := by
  constructor
  · intro M E σ lower S repository w r hr
    subst hr
    have hnone : (AddModule.pipeline lower S repository w).err = none →
        (AddModule.reported (AddModule.pipeline lower S repository w)).Validation = "" := by
      simp only [AddModule.reported, AddModule.pipeline]
      repeat' split
      all_goals simp_all
    have hsome : ∀ e, (AddModule.pipeline lower S repository w).err = some e →
        AddModule.reported (AddModule.pipeline lower S repository w)
          = { File := "", Namespace := "", Name := "", Target := "", Validation := e } := by
      intro e he
      have ho := AddModule.module_output_of_err lower S repository w e he
      simp only [AddModule.reported, he, ho]
    refine ⟨hnone, hsome, ?_, ?_, ?_⟩
    · intro e hp
      rw [AddModule.module_pipeline_of_parse_error lower S repository w e hp,
        (AddModule.module_parseStage_error_inv repository e hp).1]
    · intro id hp
      refine ⟨fun e ha => by simp [AddModule.pipeline, hp, ha], fun ha => ⟨?_, ?_⟩⟩
      · intro e w1 hl
        simp [AddModule.pipeline, hp, ha, hl]
      · intro entries w1 hl
        refine ⟨?_, fun hno => ?_⟩
        · intro pre p post he hpre hdup
          have hf := find?_first (fun q => toLower lower (S.entryString q)
              == toLower lower (S.string (S.create id))) pre p post
            (fun q hq => by simpa using hpre q hq) (by simpa using hdup)
          rw [he] at hl
          simp [AddModule.pipeline, hp, ha, hl, hf]
        · have hf := find?_none_of_forall (fun q => toLower lower (S.entryString q)
              == toLower lower (S.string (S.create id))) entries
            (fun q hq => by simpa using hno q hq)
          refine ⟨fun e sub w2 hu => by simp [AddModule.pipeline, hp, ha, hl, hf, hu],
            fun sub w2 hu => ⟨fun hv => by simp [AddModule.pipeline, hp, ha, hl, hf, hu, hv],
              fun hv => ⟨fun e w3 hs => by simp [AddModule.pipeline, hp, ha, hl, hf, hu, hv, hs],
                fun w3 hs => by simp [AddModule.pipeline, hp, ha, hl, hf, hu, hv, hs]⟩⟩⟩
    · intro haddr hlist hnosave
      constructor
      · intro hv
        cases he : (AddModule.pipeline lower S repository w).err with
        | none => rfl
        | some e =>
          have h1 := hsome e he
          rw [h1] at hv
          exact absurd hv (AddModule.module_err_ne_empty lower S repository w haddr hlist e he
            (hnosave (by rw [he]; exact Option.some_ne_none e)))
      · exact hnone
  · intro M E σ lower S repository w r hr
    subst hr
    have hnone : (AddProvider.pipeline lower S repository w).err = none →
        (AddProvider.reported (AddProvider.pipeline lower S repository w)).Validation
          = "" := by
      simp only [AddProvider.reported, AddProvider.pipeline]
      repeat' split
      all_goals simp_all
    have hsome : ∀ e, (AddProvider.pipeline lower S repository w).err = some e →
        AddProvider.reported (AddProvider.pipeline lower S repository w)
          = { File := "", Namespace := "", Name := "", Validation := e } := by
      intro e he
      have ho := AddProvider.provider_output_of_err lower S repository w e he
      simp only [AddProvider.reported, he, ho]
    refine ⟨hnone, hsome, ?_, ?_, ?_⟩
    · intro e hp
      rw [AddProvider.provider_pipeline_of_parse_error lower S repository w e hp,
        (AddProvider.provider_parseStage_error_inv lower repository e hp).1]
    · intro id hp
      refine ⟨fun e ha => by simp [AddProvider.pipeline, hp, ha], fun ha => ⟨?_, ?_⟩⟩
      · intro e w1 hl
        simp [AddProvider.pipeline, hp, ha, hl]
      · intro entries w1 hl
        refine ⟨?_, fun hno => ?_⟩
        · intro pre p post he hpre hdup
          have hf := find?_first (fun q => toLower lower (S.entryString q)
              == toLower lower (S.string (S.create id))) pre p post
            (fun q hq => by simpa using hpre q hq) (by simpa using hdup)
          rw [he] at hl
          simp [AddProvider.pipeline, hp, ha, hl, hf]
        · have hf := find?_none_of_forall (fun q => toLower lower (S.entryString q)
              == toLower lower (S.string (S.create id))) entries
            (fun q hq => by simpa using hno q hq)
          refine ⟨fun e sub w2 hu => by simp [AddProvider.pipeline, hp, ha, hl, hf, hu],
            fun sub w2 hu => ⟨fun hv => by simp [AddProvider.pipeline, hp, ha, hl, hf, hu, hv],
              fun hv => ⟨fun e w3 hs => by
                  simp [AddProvider.pipeline, hp, ha, hl, hf, hu, hv, hs],
                fun w3 hs => by simp [AddProvider.pipeline, hp, ha, hl, hf, hu, hv, hs]⟩⟩⟩
    · intro haddr hlist
      constructor
      · intro hv
        cases he : (AddProvider.pipeline lower S repository w).err with
        | none => rfl
        | some e =>
          have h1 := hsome e he
          rw [h1] at hv
          exact absurd hv (AddProvider.provider_err_ne_empty lower S repository w haddr hlist e he)
      · exact hnone

/-- Witness of the amended C7: an add-provider run that fails at `storage.Save` with
`disk full`. -/
theorem validation_reports_error_witness :
    (AddProvider.pipeline asciiLower (AddProvider.fake { saveErr := some "disk full" })
        "hashicorp/terraform-provider-aws" ["other/x"]).err
      = some ("An unexpected error occured: " ++ "disk full") ∧
    AddProvider.reported (AddProvider.pipeline asciiLower
        (AddProvider.fake { saveErr := some "disk full" })
        "hashicorp/terraform-provider-aws" ["other/x"])
      = { File := "", Namespace := "", Name := "",
          Validation := "An unexpected error occured: disk full" } ∧
    ((AddProvider.reported (AddProvider.pipeline asciiLower
        (AddProvider.fake { saveErr := some "disk full" })
        "hashicorp/terraform-provider-aws" ["other/x"])).Validation = "" ↔
      (AddProvider.pipeline asciiLower (AddProvider.fake { saveErr := some "disk full" })
        "hashicorp/terraform-provider-aws" ["other/x"]).err = none) :=
  have h := validation_reports_error.2 _ _ _ asciiLower
    (AddProvider.fake { saveErr := some "disk full" }) "hashicorp/terraform-provider-aws"
    ["other/x"] _ rfl
  ⟨((((((h.2.2.2.1 { Namespace := "hashicorp", ProviderName := "aws" } rfl).2 rfl).2
      ["other/x"] ["other/x"] rfl).2 (by decide)).2
      ({ Namespace := "hashicorp", ProviderName := "aws" }, 1) ["other/x"] rfl).2
      (by decide)).1 "disk full" ["other/x"] rfl,
    h.2.1 "An unexpected error occured: disk full" rfl,
    h.2.2.2.2 (fun _ e he => by cases he) (fun _ e _ he => by cases he)⟩

theorem AddModule.module_filter_isWrite_calls {M : Type} (l : List (AddModule.Call M)) :
    (l.map AddModule.Event.call).filter AddModule.Event.isWrite = [] := by
  induction l with
  | nil => rfl
  | cons c l ih => simp [List.filter, AddModule.Event.isWrite]

theorem AddProvider.provider_filter_isWrite_calls {M : Type} (l : List (AddProvider.Call M)) :
    (l.map AddProvider.Event.call).filter AddProvider.Event.isWrite = [] := by
  induction l with
  | nil => rfl
  | cons c l ih => simp [List.filter, AddProvider.Event.isWrite]

/-- C8: in a run in which the token lookup succeeds, the events of the process are the
collaborator calls of the pipeline, then one writing of the reported output to the output
destination, then the end of the process, and no other event is a writing of the output; the
writer is applied to the world that the pipeline leaves, which is the world returned by the
last collaborator the pipeline called, and the world the process ends in is the one the writer
returns; when the writing succeeds the process exits with code 0 if the pipeline succeeded and
with code 1 if a stage failed, and when the writing fails the process crashes. -/
theorem output_written_once :
    (∀ (M E σ : Type) (lower : Char → Char) (env : AddModule.Env M E σ)
      (flags : AddModule.Flags) (w : σ) (token : String) (r : AddModule.Result M σ)
      (res : Option String × σ),
      env.envAuthToken w = .ok token →
      r = AddModule.pipeline lower (env.newStorage flags.moduleData token)
        flags.repository w →
      res = env.safeWriteObjectToJSONFile flags.output (AddModule.reported r) r.world →
      ∃ final,
        (AddModule.main lower env flags w).events
          = r.calls.map AddModule.Event.call
            ++ [AddModule.Event.write flags.output (AddModule.reported r), final] ∧
        ((AddModule.main lower env flags w).events.filter AddModule.Event.isWrite).length = 1 ∧
        (AddModule.main lower env flags w).world = res.2 ∧
        (res.1 = none → r.err = none → final = AddModule.Event.exit 0) ∧
        (res.1 = none → r.err ≠ none → final = AddModule.Event.exit 1) ∧
        (∀ e, res.1 = some e → final = AddModule.Event.crash e)) ∧
    (∀ (M E σ : Type) (lower : Char → Char) (S : AddModule.Collaborators M E σ)
      (repository : String) (w : σ) (r : AddModule.Result M σ),
      r = AddModule.pipeline lower S repository w →
      (∀ e, AddModule.parseStage repository = .error e → r.world = w) ∧
      (∀ id, AddModule.parseStage repository = .ok id →
        (∀ e, S.parseModuleSource (S.string (S.create id)) = some e → r.world = w) ∧
        (S.parseModuleSource (S.string (S.create id)) = none →
          (∀ e w1, S.list w = (.error e, w1) → r.world = w1) ∧
          (∀ entries w1, S.list w = (.ok entries, w1) →
            (∀ (pre : List E) (p : E) (post : List E), entries = pre ++ p :: post →
              (∀ q ∈ pre, toLower lower (S.entryString q)
                ≠ toLower lower (S.string (S.create id))) →
              toLower lower (S.entryString p) = toLower lower (S.string (S.create id)) →
              r.world = w1) ∧
            ((∀ q ∈ entries, toLower lower (S.entryString q)
                ≠ toLower lower (S.string (S.create id))) →
              (∀ e sub w2, S.updateMetadata (S.create id) w1 = ((some e, sub), w2) →
                r.world = w2) ∧
              (∀ sub w2, S.updateMetadata (S.create id) w1 = ((none, sub), w2) →
                (S.versions sub = 0 → r.world = w2) ∧
                (S.versions sub ≠ 0 →
                  ∀ e w3, S.save sub w2 = (e, w3) → r.world = w3))))))) ∧
    (∀ (M E σ : Type) (lower : Char → Char) (env : AddProvider.Env M E σ)
      (flags : AddProvider.Flags) (w : σ) (token : String) (r : AddProvider.Result M σ)
      (res : Option String × σ),
      env.envAuthToken w = .ok token →
      r = AddProvider.pipeline lower (env.newStorage flags.providerData token)
        flags.repository w →
      res = env.safeWriteObjectToJSONFile flags.output (AddProvider.reported r) r.world →
      ∃ final,
        (AddProvider.main lower env flags w).events
          = r.calls.map AddProvider.Event.call
            ++ [AddProvider.Event.write flags.output (AddProvider.reported r), final] ∧
        ((AddProvider.main lower env flags w).events.filter
          AddProvider.Event.isWrite).length = 1 ∧
        (AddProvider.main lower env flags w).world = res.2 ∧
        (res.1 = none → r.err = none → final = AddProvider.Event.exit 0) ∧
        (res.1 = none → r.err ≠ none → final = AddProvider.Event.exit 1) ∧
        (∀ e, res.1 = some e → final = AddProvider.Event.crash e)) ∧
    (∀ (M E σ : Type) (lower : Char → Char) (S : AddProvider.Collaborators M E σ)
      (repository : String) (w : σ) (r : AddProvider.Result M σ),
      r = AddProvider.pipeline lower S repository w →
      (∀ e, AddProvider.parseStage lower repository = .error e → r.world = w) ∧
      (∀ id, AddProvider.parseStage lower repository = .ok id →
        (∀ e, S.parseProviderSource (S.string (S.create id)) = some e → r.world = w) ∧
        (S.parseProviderSource (S.string (S.create id)) = none →
          (∀ e w1, S.list w = (.error e, w1) → r.world = w1) ∧
          (∀ entries w1, S.list w = (.ok entries, w1) →
            (∀ (pre : List E) (p : E) (post : List E), entries = pre ++ p :: post →
              (∀ q ∈ pre, toLower lower (S.entryString q)
                ≠ toLower lower (S.string (S.create id))) →
              toLower lower (S.entryString p) = toLower lower (S.string (S.create id)) →
              r.world = w1) ∧
            ((∀ q ∈ entries, toLower lower (S.entryString q)
                ≠ toLower lower (S.string (S.create id))) →
              (∀ e sub w2, S.updateMetadata (S.create id) w1 = ((some e, sub), w2) →
                r.world = w2) ∧
              (∀ sub w2, S.updateMetadata (S.create id) w1 = ((none, sub), w2) →
                (S.versions sub = 0 → r.world = w2) ∧
                (S.versions sub ≠ 0 →
                  ∀ e w3, S.save sub w2 = (e, w3) → r.world = w3))))))) := by
  refine ⟨?_, ?_, ?_, ?_⟩
  · intro M E σ lower env flags w token r res ht hr hres
    subst hr
    simp only [AddModule.main, ht]
    generalize AddModule.pipeline lower (env.newStorage flags.moduleData token)
      flags.repository w = r at hres
    subst hres
    rcases hw : env.safeWriteObjectToJSONFile flags.output (AddModule.reported r) r.world
      with ⟨_ | e, w'⟩
    · cases he : r.err with
      | none =>
        refine ⟨AddModule.Event.exit 0, rfl, ?_, rfl, fun _ _ => rfl,
          fun _ h => absurd rfl h, fun e h => (by cases h)⟩
        simp [List.filter_append, AddModule.module_filter_isWrite_calls, List.filter,
          AddModule.Event.isWrite]
      | some e =>
        refine ⟨AddModule.Event.exit 1, rfl, ?_, rfl, fun _ h => (by cases h),
          fun _ _ => rfl, fun e h => (by cases h)⟩
        simp [List.filter_append, AddModule.module_filter_isWrite_calls, List.filter,
          AddModule.Event.isWrite]
    · refine ⟨AddModule.Event.crash e, rfl, ?_, rfl, fun h => (by cases h),
        fun h => (by cases h), fun e' h => (by cases h; rfl)⟩
      simp [List.filter_append, AddModule.module_filter_isWrite_calls, List.filter,
        AddModule.Event.isWrite]
  · intro M E σ lower S repository w r hr
    subst hr
    refine ⟨fun e hp => by rw [AddModule.module_pipeline_of_parse_error lower S repository w e hp],
      fun id hp => ⟨fun e ha => by simp [AddModule.pipeline, hp, ha], fun ha => ⟨?_, ?_⟩⟩⟩
    · intro e w1 hl
      simp [AddModule.pipeline, hp, ha, hl]
    · intro entries w1 hl
      refine ⟨?_, fun hno => ?_⟩
      · intro pre p post he hpre hdup
        have hf := find?_first (fun q => toLower lower (S.entryString q)
            == toLower lower (S.string (S.create id))) pre p post
          (fun q hq => by simpa using hpre q hq) (by simpa using hdup)
        rw [he] at hl
        simp [AddModule.pipeline, hp, ha, hl, hf]
      · have hf := find?_none_of_forall (fun q => toLower lower (S.entryString q)
            == toLower lower (S.string (S.create id))) entries
          (fun q hq => by simpa using hno q hq)
        refine ⟨fun e sub w2 hu => by simp [AddModule.pipeline, hp, ha, hl, hf, hu],
          fun sub w2 hu => ⟨fun hv => by simp [AddModule.pipeline, hp, ha, hl, hf, hu, hv],
            fun hv e w3 hs => ?_⟩⟩
        cases e <;> simp [AddModule.pipeline, hp, ha, hl, hf, hu, hv, hs]
  · intro M E σ lower env flags w token r res ht hr hres
    subst hr
    simp only [AddProvider.main, ht]
    generalize AddProvider.pipeline lower (env.newStorage flags.providerData token)
      flags.repository w = r at hres
    subst hres
    rcases hw : env.safeWriteObjectToJSONFile flags.output (AddProvider.reported r) r.world
      with ⟨_ | e, w'⟩
    · cases he : r.err with
      | none =>
        refine ⟨AddProvider.Event.exit 0, rfl, ?_, rfl, fun _ _ => rfl,
          fun _ h => absurd rfl h, fun e h => (by cases h)⟩
        simp [List.filter_append, AddProvider.provider_filter_isWrite_calls, List.filter,
          AddProvider.Event.isWrite]
      | some e =>
        refine ⟨AddProvider.Event.exit 1, rfl, ?_, rfl, fun _ h => (by cases h),
          fun _ _ => rfl, fun e h => (by cases h)⟩
        simp [List.filter_append, AddProvider.provider_filter_isWrite_calls, List.filter,
          AddProvider.Event.isWrite]
    · refine ⟨AddProvider.Event.crash e, rfl, ?_, rfl, fun h => (by cases h),
        fun h => (by cases h), fun e' h => (by cases h; rfl)⟩
      simp [List.filter_append, AddProvider.provider_filter_isWrite_calls, List.filter,
        AddProvider.Event.isWrite]
  · intro M E σ lower S repository w r hr
    subst hr
    refine ⟨fun e hp => by
        rw [AddProvider.provider_pipeline_of_parse_error lower S repository w e hp],
      fun id hp => ⟨fun e ha => by simp [AddProvider.pipeline, hp, ha], fun ha => ⟨?_, ?_⟩⟩⟩
    · intro e w1 hl
      simp [AddProvider.pipeline, hp, ha, hl]
    · intro entries w1 hl
      refine ⟨?_, fun hno => ?_⟩
      · intro pre p post he hpre hdup
        have hf := find?_first (fun q => toLower lower (S.entryString q)
            == toLower lower (S.string (S.create id))) pre p post
          (fun q hq => by simpa using hpre q hq) (by simpa using hdup)
        rw [he] at hl
        simp [AddProvider.pipeline, hp, ha, hl, hf]
      · have hf := find?_none_of_forall (fun q => toLower lower (S.entryString q)
            == toLower lower (S.string (S.create id))) entries
          (fun q hq => by simpa using hno q hq)
        refine ⟨fun e sub w2 hu => by simp [AddProvider.pipeline, hp, ha, hl, hf, hu],
          fun sub w2 hu => ⟨fun hv => by simp [AddProvider.pipeline, hp, ha, hl, hf, hu, hv],
            fun hv e w3 hs => ?_⟩⟩
        cases e <;> simp [AddProvider.pipeline, hp, ha, hl, hf, hu, hv, hs]

/-- Witness of C8: a submission admitted to a catalog that holds another module; the catalog
entry is saved, the output is written once to `out.json`, and the process exits with
code 0. -/
theorem output_written_once_witness :
    ∃ final,
      (AddModule.main asciiLower (AddModule.fakeEnv {})
          { repository := "hashicorp/terraform-aws-vpc", output := "out.json" }
          ["other/x/y"]).events
        = (AddModule.pipeline asciiLower (AddModule.fake {}) "hashicorp/terraform-aws-vpc"
            ["other/x/y"]).calls.map AddModule.Event.call
          ++ [AddModule.Event.write "out.json"
              { File := "modules/hashicorp/vpc/aws.json", Namespace := "hashicorp",
                Name := "vpc", Target := "aws", Validation := "" }, final] ∧
      (AddModule.main asciiLower (AddModule.fakeEnv {})
          { repository := "hashicorp/terraform-aws-vpc", output := "out.json" }
          ["other/x/y"]).world = ["other/x/y", "hashicorp/vpc/aws", "out.json"] ∧
      final = AddModule.Event.exit 0 := by
  obtain ⟨final, h1, -, h3, h4, -, -⟩ := output_written_once.1 _ _ _ asciiLower
    (AddModule.fakeEnv {})
    { repository := "hashicorp/terraform-aws-vpc", output := "out.json" }
    ["other/x/y"] "secret" _ _ rfl rfl rfl
  exact ⟨final, h1, h3, h4 rfl rfl⟩

/-- C10 at the failing input: `storage.Save` returns the error `disk full` in a module run and
in a provider run that agree on every stage; both runs make the same kinds of calls and exit
with code 1, but add-module reports `disk full` and add-provider reports
`An unexpected error occured: disk full`. -/
theorem save_error_reported_differently :
    (AddModule.reported (AddModule.pipeline asciiLower
        (AddModule.fake { saveErr := some "disk full" })
        "hashicorp/terraform-aws-vpc" [])).Validation = "disk full" ∧
    (AddProvider.reported (AddProvider.pipeline asciiLower
        (AddProvider.fake { saveErr := some "disk full" })
        "hashicorp/terraform-provider-aws" [])).Validation
      = "An unexpected error occured: disk full" ∧
    (AddModule.reported (AddModule.pipeline asciiLower
        (AddModule.fake { saveErr := some "disk full" })
        "hashicorp/terraform-aws-vpc" [])).Validation
      ≠ (AddProvider.reported (AddProvider.pipeline asciiLower
        (AddProvider.fake { saveErr := some "disk full" })
        "hashicorp/terraform-provider-aws" [])).Validation ∧
    (AddModule.pipeline asciiLower (AddModule.fake { saveErr := some "disk full" })
        "hashicorp/terraform-aws-vpc" []).calls.map AddModule.Call.kind
      = (AddProvider.pipeline asciiLower (AddProvider.fake { saveErr := some "disk full" })
        "hashicorp/terraform-provider-aws" []).calls.map AddProvider.Call.kind ∧
    (AddModule.main asciiLower (AddModule.fakeEnv { saveErr := some "disk full" })
        { repository := "hashicorp/terraform-aws-vpc", output := "out.json" } []).events.getLast?
      = some (AddModule.Event.exit 1) ∧
    (AddProvider.main asciiLower (AddProvider.fakeEnv { saveErr := some "disk full" })
        { repository := "hashicorp/terraform-provider-aws", output := "out.json" }
        []).events.getLast?
      = some (AddProvider.Event.exit 1) :=
  ⟨rfl, rfl, by decide, rfl, rfl, rfl⟩

end Registry
